import Mathlib

/-!
Shallow embedding of `phy/cluster/manual/wizard.py` (the cluster-review Wizard).

Conventions of the embedding:
* Cluster ids are `Nat`.
* A cluster's review group is `Option ClusterGroup` where `none` models Python's
  `None` (unsorted) and `ClusterGroup` is `good` or `ignored`, following the
  data model of the specification (three-variant enumeration).
* The cluster-group dictionary is an association list `List (ClusterId × Option ClusterGroup)`;
  Python dict insertion-order semantics are kept (update in place, append new keys).
* Python exceptions (failed `assert`, `ValueError` from `list.index`,
  `RuntimeError` from `_previous`/`_next`, `IndexError` from `[0]`,
  `StopIteration`) are modelled by `Option`: `none` means the call raised.
* The registered quality and similarity functions are passed explicitly to the
  operations that use them (the source stores them in the object; no claim is
  about the storage itself). Scores are `Int`.
* Python's stable `sorted(..., reverse=True)` is `List.insertionSort` with the
  order `b.2 ≤ a.2` (descending by value; insertion sort is stable, like
  Python's sort, and reduces in the kernel).
-/

abbrev ClusterId := Nat

/-- Review group of a cluster; Python's `None` (unsorted) is `Option.none`. -/
inductive ClusterGroup where
  | good
  | ignored
deriving DecidableEq, Repr

/-- The `history` tag of a cluster-update event. -/
inductive HistoryTag where
  | undo
  | redo
deriving DecidableEq, Repr

/-- The `description` tag of a cluster-update event. -/
inductive UpDescription where
  | merge
  | assign
  | metadataGroup
deriving DecidableEq, Repr

/-- Modelled from the spec: the `History` class imported by `wizard.py` from a
module outside the excerpt. Per the spec it is an append-only, cursor-addressable
sequence of `(best, match)` selection snapshots: `add` appends a snapshot and
places the cursor on it, `undo`/`redo` move the cursor backward/forward
(clamping at the ends), `current_item` returns the snapshot at the cursor,
`is_first`/`is_last` report whether the cursor is at the first/last snapshot. -/
structure History where
  items : List (Option ClusterId × Option ClusterId)
  index : Nat
deriving DecidableEq, Repr

namespace History

/-- Modelled from the spec: construction with a base snapshot. -/
def init (base : Option ClusterId × Option ClusterId) : History :=
  ⟨[base], 0⟩

/-- Modelled from the spec: append a snapshot, cursor moves onto it. -/
def add (h : History) (x : Option ClusterId × Option ClusterId) : History :=
  ⟨h.items ++ [x], h.items.length⟩

/-- Modelled from the spec: move the cursor one step back, clamping at 0. -/
def undo (h : History) : History :=
  ⟨h.items, h.index - 1⟩

/-- Modelled from the spec: move the cursor one step forward, clamping at the end. -/
def redo (h : History) : History :=
  ⟨h.items, min (h.index + 1) (h.items.length - 1)⟩

/-- Modelled from the spec: whether the cursor is at the first snapshot. -/
def is_first (h : History) : Bool :=
  h.index = 0

/-- Modelled from the spec: whether the cursor is at the last snapshot. -/
def is_last (h : History) : Bool :=
  h.index = h.items.length - 1

/-- Modelled from the spec: the snapshot at the cursor. -/
def current_item (h : History) : Option (Option ClusterId × Option ClusterId) :=
  h.items[h.index]?

end History

/-- Python `list.insert(i, a)`: insert before position `i`, appending when
`i` is at least the length. -/
def pyInsert (l : List α) (i : Nat) (a : α) : List α :=
  l.take i ++ a :: l.drop i

/-- Python `list.index(a)`: position of the first occurrence, `none` when the
element is absent (Python raises `ValueError`). -/
def pyIndex? [DecidableEq α] (l : List α) (a : α) : Option Nat :=
  l.findIdx? (fun x => x = a)

/-- `_argsort(seq, reverse=True, n_max)` from `wizard.py`: clusters in
decreasing order of value from a list of `(cluster, value)` pairs, truncated
to `n_max` unless `n_max` is `None` or `0`. -/
def _argsort (seq : List (ClusterId × Int)) (n_max : Option Nat) : List ClusterId :=
  let out := (seq.insertionSort (fun a b => b.2 ≤ a.2)).map Prod.fst
  match n_max with
  | none => out
  | some 0 => out
  | some k => out.take k

/-- `_best_clusters(clusters, quality, n_max)` from `wizard.py`. -/
def _best_clusters (clusters : List ClusterId) (quality : ClusterId → Int)
    (n_max : Option Nat) : List ClusterId :=
  _argsort (clusters.map (fun cluster => (cluster, quality cluster))) n_max

/-- `_next(items, current)` from `wizard.py`, as called by the wizard (no
filter argument is ever passed by the navigation methods). The outer `Option`
is the exception monad (`none` = `RuntimeError`), the inner one is the
returned value, which can be Python `None` when `items` is empty. -/
def _next (items : List ClusterId) (current : Option ClusterId) :
    Option (Option ClusterId) :=
  if items = [] then
    some current
  else
    match current with
    | none => none
    | some c =>
      match pyIndex? items c with
      | none => none
      | some i =>
        if i = items.length - 1 then
          some (some c)
        else
          some items[i + 1]?

/-- `_previous(items, current)` from `wizard.py`, as called by the wizard (no
filter argument). Unlike `_next`, an empty `items` still raises when
`current` is not in it. -/
def _previous (items : List ClusterId) (current : Option ClusterId) :
    Option (Option ClusterId) :=
  match current with
  | none => none
  | some c =>
    match pyIndex? items c with
    | none => none
    | some i =>
      if i = 0 then
        some (some c)
      else
        some items[i - 1]?

/-- A cluster-update event (`up`) as consumed by `Wizard.on_cluster`. -/
structure ClusterUpdate where
  description : Option UpDescription
  added : List ClusterId
  deleted : List ClusterId
  descendants : List (ClusterId × ClusterId)
  metadata_changed : List ClusterId
  metadata_value : Option ClusterGroup
  history : Option HistoryTag
deriving DecidableEq, Repr

/-- The state of the `Wizard` object: the cluster-group dictionary, the best
and match lists, the current selection, and the history. The `match` attribute
is called `match_` because `match` is a Lean keyword. -/
structure Wizard where
  clusterGroups : List (ClusterId × Option ClusterGroup)
  bestList : List ClusterId
  matchList : List ClusterId
  best : Option ClusterId
  match_ : Option ClusterId
  history : History
deriving DecidableEq, Repr

namespace Wizard

/-- `Wizard.__init__(cluster_groups)` with every cluster unsorted (the
array-like constructor path). -/
def init (clusters : List ClusterId) : Wizard :=
  ⟨clusters.map (fun clu => (clu, none)), [], [], none, none, History.init (none, none)⟩

/-- The keys of the cluster-group dictionary, in insertion order. -/
def keysList (w : Wizard) : List ClusterId :=
  w.clusterGroups.map Prod.fst

/-- `Wizard.cluster_ids`: sorted list of the group-dictionary keys. -/
def cluster_ids (w : Wizard) : List ClusterId :=
  w.keysList.insertionSort (fun a b => a ≤ b)

/-- `Wizard._group(cluster)`: `cluster_groups.get(cluster, None)`. -/
def _group (w : Wizard) (cluster : ClusterId) : Option ClusterGroup :=
  match w.clusterGroups.find? (fun p => p.1 = cluster) with
  | some p => p.2
  | none => none

/-- `Wizard._in_groups(items, groups)`: the items whose group is in `groups`. -/
def _in_groups (w : Wizard) (items : List ClusterId) (groups : List (Option ClusterGroup)) :
    List ClusterId :=
  items.filter (fun item => w._group item ∈ groups)

/-- `Wizard._sort(items, mix_good_unsorted)`: partition by group, either
`(unsorted+good, ignored)` or `(unsorted, good, ignored)`. -/
def _sort (w : Wizard) (items : List ClusterId) (mix_good_unsorted : Bool) :
    List ClusterId :=
  if mix_good_unsorted then
    w._in_groups items [none, some ClusterGroup.good] ++ w._in_groups items [some ClusterGroup.ignored]
  else
    w._in_groups items [none] ++ w._in_groups items [some ClusterGroup.good] ++
      w._in_groups items [some ClusterGroup.ignored]

/-- `Wizard.n_clusters`: total number of clusters. -/
def n_clusters (w : Wizard) : Nat :=
  w.cluster_ids.length

/-- `Wizard.n_processed`: number of `good` or `ignored` clusters in the best list. -/
def n_processed (w : Wizard) : Nat :=
  (w._in_groups w.bestList [some ClusterGroup.good, some ClusterGroup.ignored]).length

/-- `Wizard.best_clusters(n_max, quality)`: every known cluster scored with
`quality`, sorted by decreasing quality, truncated to `n_max`, then
re-partitioned `(unsorted, good, ignored)`. -/
def best_clusters (w : Wizard) (quality : ClusterId → Int) (n_max : Option Nat) :
    List ClusterId :=
  w._sort (_best_clusters w.cluster_ids quality n_max) false

/-- `Wizard.most_similar_clusters(cluster, n_max, similarity)`: every other
cluster scored with `similarity(cluster, ·)`, sorted by decreasing similarity,
truncated, then partitioned `(unsorted+good, ignored)`. The quality function is
needed for the fallback `best_clusters(1)[0]` when no cluster is given and no
best is set, which raises (`none`) on an empty cluster set. -/
def most_similar_clusters (w : Wizard) (quality : ClusterId → Int)
    (similarity : ClusterId → ClusterId → Int) (cluster : Option ClusterId)
    (n_max : Option Nat) : Option (List ClusterId) :=
  match (match cluster with
         | some c => some c
         | none =>
           match w.best with
           | some b => some b
           | none => (w.best_clusters quality (some 1)).head?) with
  | none => none
  | some c =>
    some (w._sort (_argsort ((w.cluster_ids.filter (fun other => other ≠ c)).map
      (fun other => (other, similarity c other))) n_max) true)

/-- The `best` property setter: `assert value in self._best_list` then store.
A `none` value always fails the assert (Python `None in list` is false). -/
def setBestValue (w : Wizard) (value : Option ClusterId) : Option Wizard :=
  match value with
  | none => none
  | some b => if b ∈ w.bestList then some { w with best := some b } else none

/-- The `match` property setter: a non-`None` value must be in the match list;
`None` is accepted. -/
def setMatchValue (w : Wizard) (value : Option ClusterId) : Option Wizard :=
  match value with
  | none => some { w with match_ := none }
  | some m => if m ∈ w.matchList then some { w with match_ := some m } else none

/-- `Wizard._set_best_list()` as called from `start()` (both arguments
defaulted): rebuild the best list and select its head if non-empty. -/
def start (w : Wizard) (quality : ClusterId → Int) : Wizard :=
  match w.best_clusters quality none with
  | [] => { w with bestList := [] }
  | c :: rest => { w with bestList := c :: rest, best := some c }

/-- Python's `if cluster is None: cluster = self.best` default-argument
idiom, shared by `pin` and `_set_match_list`. -/
def defaultToBest (w : Wizard) (cluster : Option ClusterId) : Option ClusterId :=
  match cluster with
  | none => w.best
  | some c => some c

/-- `Wizard._set_match_list(cluster)` (with the `clusters` argument
defaulted): rebuild the match list for `cluster` (defaulting to the current
best) and select its head if non-empty. -/
def _set_match_list (w : Wizard) (quality : ClusterId → Int)
    (similarity : ClusterId → ClusterId → Int) (cluster : Option ClusterId) :
    Option Wizard :=
  match w.most_similar_clusters quality similarity (w.defaultToBest cluster) none with
  | none => none
  | some [] => some { w with matchList := [] }
  | some (c :: rest) => some { w with matchList := c :: rest, match_ := some c }

/-- Invariant 1 of the data model: `bestList` and `matchList` only hold ids
present in the cluster-group map (the first two asserts of `Wizard._check`). -/
def inv1b (w : Wizard) : Bool :=
  w.bestList.all (fun c => w.keysList.contains c) &&
  w.matchList.all (fun c => w.keysList.contains c)

/-- A defined `best` lies in `bestList` (no emptiness guard). -/
def bestMem (w : Wizard) : Bool :=
  w.best.all (fun b => w.bestList.contains b)

/-- A defined `match` lies in `matchList` (no emptiness guard). -/
def matchMem (w : Wizard) : Bool :=
  w.match_.all (fun m => w.matchList.contains m)

/-- Invariant 2: if `bestList` is non-empty and `best` is defined then
`best ∈ bestList` (the third assert of `Wizard._check`). -/
def inv2b (w : Wizard) : Bool :=
  w.bestList.isEmpty || w.bestMem

/-- Invariant 3: if `matchList` is non-empty and `match` is defined then
`match ∈ matchList` (the fourth assert of `Wizard._check`). -/
def inv3b (w : Wizard) : Bool :=
  w.matchList.isEmpty || w.matchMem

/-- Invariant 4: a defined `best` and a defined `match` differ (the last
assert of `Wizard._check`). -/
def inv4b (w : Wizard) : Bool :=
  match w.best, w.match_ with
  | some b, some m => b ≠ m
  | _, _ => true

/-- `Wizard._check()` as a boolean: the four data-model invariants checked by
the source's asserts. -/
def checkB (w : Wizard) : Bool :=
  w.inv1b && w.inv2b && w.inv3b && w.inv4b

/-- `Wizard._has_finished`. -/
def _has_finished (w : Wizard) : Bool :=
  w.best.isSome && w.bestList.length ≤ 1

/-- `Wizard.next_best()`. -/
def next_best (w : Wizard) (quality : ClusterId → Int)
    (similarity : ClusterId → ClusterId → Int) : Option Wizard :=
  if w._has_finished then
    some w
  else
    match _next w.bestList w.best with
    | none => none
    | some v =>
      match w.setBestValue v with
      | none => none
      | some w' =>
        match w'.match_ with
        | none => some w'
        | some _ => w'._set_match_list quality similarity none

/-- `Wizard.previous_best()`. -/
def previous_best (w : Wizard) (quality : ClusterId → Int)
    (similarity : ClusterId → ClusterId → Int) : Option Wizard :=
  if w._has_finished then
    some w
  else
    match _previous w.bestList w.best with
    | none => none
    | some v =>
      match w.setBestValue v with
      | none => none
      | some w' =>
        match w'.match_ with
        | none => some w'
        | some _ => w'._set_match_list quality similarity none

/-- `Wizard.next_match()`. -/
def next_match (w : Wizard) (quality : ClusterId → Int)
    (similarity : ClusterId → ClusterId → Int) : Option Wizard :=
  if w.match_.isSome && w.matchList.length ≤ 1 then
    w.next_best quality similarity
  else
    match _next w.matchList w.match_ with
    | none => none
    | some v => w.setMatchValue v

/-- `Wizard.previous_match()`. -/
def previous_match (w : Wizard) : Option Wizard :=
  match _previous w.matchList w.match_ with
  | none => none
  | some v => w.setMatchValue v

/-- `Wizard.next()`. -/
def next (w : Wizard) (quality : ClusterId → Int)
    (similarity : ClusterId → ClusterId → Int) : Option Wizard :=
  match w.match_ with
  | none => w.next_best quality similarity
  | some _ => w.next_match quality similarity

/-- `Wizard.previous()`. -/
def previous (w : Wizard) (quality : ClusterId → Int)
    (similarity : ClusterId → ClusterId → Int) : Option Wizard :=
  match w.match_ with
  | none => w.previous_best quality similarity
  | some _ => w.previous_match

/-- `Wizard.first()`: jump to the head of the active list (`[0]` raises
`IndexError` on an empty list). -/
def first (w : Wizard) : Option Wizard :=
  match w.match_ with
  | none =>
    match w.bestList.head? with
    | none => none
    | some c => w.setBestValue (some c)
  | some _ =>
    match w.matchList.head? with
    | none => none
    | some c => w.setMatchValue (some c)

/-- `Wizard.last()`: jump to the last element of the active list. -/
def last (w : Wizard) : Option Wizard :=
  match w.match_ with
  | none =>
    match w.bestList.getLast? with
    | none => none
    | some c => w.setBestValue (some c)
  | some _ =>
    match w.matchList.getLast? with
    | none => none
    | some c => w.setMatchValue (some c)

/-- `Wizard.pin(cluster)`. -/
def pin (w : Wizard) (quality : ClusterId → Int)
    (similarity : ClusterId → ClusterId → Int) (cluster : Option ClusterId) :
    Option Wizard :=
  if w._has_finished then
    some w
  else
    if w.match_.isSome && w.best = w.defaultToBest cluster then
      some w
    else
      match w.setBestValue (w.defaultToBest cluster) with
      | none => none
      | some w' =>
        match w'._set_match_list quality similarity (w.defaultToBest cluster) with
        | none => none
        | some w'' => if w''.checkB then some w'' else none

/-- `Wizard.unpin()`. -/
def unpin (w : Wizard) : Wizard :=
  match w.match_ with
  | none => w
  | some _ => { w with match_ := none, matchList := [] }

/-- One iteration of the loop in `Wizard._delete(clusters)`. -/
def _deleteOne (w : Wizard) (clu : ClusterId) : Wizard :=
  ⟨w.clusterGroups.eraseP (fun p => p.1 = clu),
    w.bestList.erase clu,
    w.matchList.erase clu,
    if w.best = some clu then (w.bestList.erase clu).head? else w.best,
    if w.match_ = some clu then none else w.match_,
    w.history⟩

/-- `Wizard._delete(clusters)`. -/
def _delete (w : Wizard) (clusters : List ClusterId) : Wizard :=
  clusters.foldl _deleteOne w

/-- One iteration of the loop in `Wizard._add(clusters, group, position)`:
the asserts require the cluster to be fresh. -/
def _addOne (w : Wizard) (clu : ClusterId) (group : Option ClusterGroup)
    (position : Option Nat) : Option Wizard :=
  if w.clusterGroups.any (fun p => p.1 = clu) || clu ∈ w.bestList || clu ∈ w.matchList then
    none
  else
    some ⟨w.clusterGroups ++ [(clu, group)],
      (match w.best, position with
       | none, _ => w.bestList
       | some _, none => w.bestList ++ [clu]
       | some _, some p => pyInsert w.bestList p clu),
      (match w.match_ with
       | none => w.matchList
       | some _ => w.matchList ++ [clu]),
      w.best, w.match_, w.history⟩

/-- Python dict assignment `d[k] = v`: update in place or append a new key. -/
def dictSet (d : List (ClusterId × Option ClusterGroup)) (k : ClusterId) (v : Option ClusterGroup) :
    List (ClusterId × Option ClusterGroup) :=
  if d.any (fun p => p.1 = k) then
    d.map (fun p => if p.1 = k then (k, v) else p)
  else
    d ++ [(k, v)]

/-- The per-added-cluster step of `Wizard._update_state`: find the first
parent whose child is `clu` in `descendants`, take its group and its position
in the best list, and `_add`. `parents[0]` raises on an empty parents list,
`best_list.index(parent)` raises when the best list is non-empty and the
parent is absent. -/
def _update_state_add (up : ClusterUpdate) (w : Wizard) (clu : ClusterId) :
    Option Wizard :=
  match ((up.descendants.filter (fun p => p.2 = clu)).map Prod.fst).head? with
  | none => none
  | some parent =>
    match w.bestList with
    | [] => w._addOne clu (w._group parent) none
    | _ :: _ =>
      match pyIndex? w.bestList parent with
      | none => none
      | some i => w._addOne clu (w._group parent) (some i)

/-- The metadata step of `Wizard._update_state`: for a `metadata_group`
event, set the group of `metadata_changed[0]` (raising on an empty list). -/
def _update_state_meta (w : Wizard) (up : ClusterUpdate) : Option Wizard :=
  match up.description with
  | some UpDescription.metadataGroup =>
    match up.metadata_changed.head? with
    | none => none
    | some cluster =>
      some { w with clusterGroups := dictSet w.clusterGroups cluster up.metadata_value }
  | _ => some w

/-- `Wizard._update_state(up)`. -/
def _update_state (w : Wizard) (up : ClusterUpdate) : Option Wizard :=
  match w._update_state_meta up with
  | none => none
  | some w1 =>
    match up.added.foldlM (_update_state_add up) w1 with
    | none => none
    | some w2 => some (w2._delete up.deleted)

/-- The best-restoring step of `Wizard._select_history`: when the recorded
best is defined and the best list is non-empty, assert membership and select
it through the setter. -/
def _select_history_best (w : Wizard) (best : Option ClusterId) : Option Wizard :=
  if best.isSome && !w.bestList.isEmpty then
    match best with
    | none => none
    | some b => if b ∈ w.bestList then w.setBestValue (some b) else none
  else
    some w

/-- The ensure-best-valid step of `Wizard._select_history`: a defined best
absent from the best list falls back to `best_list[0]`. -/
def _ensure_best (w : Wizard) : Option Wizard :=
  match w.best with
  | some b =>
    if b ∈ w.bestList then
      some w
    else
      match w.bestList.head? with
      | none => none
      | some c => w.setBestValue (some c)
  | none => some w

/-- The match-restoring step of `Wizard._select_history`: when the recorded
match is defined and the match list is non-empty, rebuild the match list,
assert membership and select the recorded match through the setter. -/
def _select_history_match (w : Wizard) (quality : ClusterId → Int)
    (similarity : ClusterId → ClusterId → Int) (match_ : Option ClusterId) :
    Option Wizard :=
  if match_.isSome && !w.matchList.isEmpty then
    match w._set_match_list quality similarity none with
    | none => none
    | some w' =>
      match match_ with
      | none => none
      | some m => if m ∈ w'.matchList then w'.setMatchValue (some m) else none
  else
    some w

/-- The ensure-match-valid step of `Wizard._select_history`: a defined match
absent from the match list falls back to `match_list[0]`. -/
def _ensure_match (w : Wizard) : Option Wizard :=
  match w.match_ with
  | some m =>
    if m ∈ w.matchList then
      some w
    else
      match w.matchList.head? with
      | none => none
      | some c => w.setMatchValue (some c)
  | none => some w

/-- `Wizard._select_history()`. -/
def _select_history (w : Wizard) (quality : ClusterId → Int)
    (similarity : ClusterId → ClusterId → Int) : Option Wizard :=
  match w.history.current_item with
  | none => none
  | some (best, match_) =>
    match _select_history_best w best with
    | none => none
    | some w1 =>
      match _ensure_best w1 with
      | none => none
      | some w2 =>
        match _select_history_match w2 quality similarity match_ with
        | none => none
        | some w3 => _ensure_match w3

/-- The description dispatch of `Wizard._update_selection(up)` for events
that do not come from history replay. -/
def _update_selection_descr (w : Wizard) (quality : ClusterId → Int)
    (similarity : ClusterId → ClusterId → Int) (up : ClusterUpdate) :
    Option Wizard :=
  match up.description with
  | some UpDescription.merge =>
    match up.added.head? with
    | none => none
    | some c => w.pin quality similarity (some c)
  | some UpDescription.assign =>
    match up.added.head? with
    | none => none
    | some c => w.pin quality similarity (some c)
  | some UpDescription.metadataGroup =>
    match up.metadata_changed.head? with
    | none => none
    | some cluster =>
      if w.best = some cluster then
        w.next_best quality similarity
      else if w.match_ = some cluster then
        w.next_match quality similarity
      else
        some w
  | none => some w

/-- The selection dispatch of `Wizard._update_selection(up)` (everything
before the final `_check()` call). -/
def _update_selection_sel (w : Wizard) (quality : ClusterId → Int)
    (similarity : ClusterId → ClusterId → Int) (up : ClusterUpdate) :
    Option Wizard :=
  match up.history with
  | some HistoryTag.undo =>
    Wizard._select_history
      { w with history := (if !w.history.is_last then w.history.undo else w.history).undo }
      quality similarity
  | some HistoryTag.redo =>
    Wizard._select_history
      { w with history := (if !w.history.is_first then w.history.redo else w.history).redo }
      quality similarity
  | none => w._update_selection_descr quality similarity up

/-- `Wizard._update_selection(up)`, ending with the `_check()` call. -/
def _update_selection (w : Wizard) (quality : ClusterId → Int)
    (similarity : ClusterId → ClusterId → Int) (up : ClusterUpdate) :
    Option Wizard :=
  match w._update_selection_sel quality similarity up with
  | none => none
  | some w' => if w'.checkB then some w' else none

/-- `Wizard.on_cluster(up)`. The `up is None` early return of the source is
not modelled: events are always structures here. -/
def on_cluster (w : Wizard) (quality : ClusterId → Int)
    (similarity : ClusterId → ClusterId → Int) (up : ClusterUpdate) :
    Option Wizard :=
  if w._has_finished then
    some w
  else if w.bestList.isEmpty || w.matchList.isEmpty then
    match w._update_state up with
    | none => none
    | some w1 =>
      if w1.bestList.isEmpty then
        some w1
      else
        w1._update_selection quality similarity up
  else
    match (if up.history.isNone then
             { w with history := w.history.add (w.best, w.match_) }
           else w)._update_state up with
    | none => none
    | some w1 =>
      match w1._update_selection quality similarity up with
      | none => none
      | some w2 =>
        if up.history.isNone then
          some { w2 with history := w2.history.add (w2.best, w2.match_) }
        else
          some w2

/-- `_progress(value, maximum)` from the panel helpers (integer truncation of
`100 * value / (maximum - 1)`, with `1` for `maximum <= 1`). -/
def _progress (value maximum : Nat) : Nat :=
  if maximum ≤ 1 then 1 else 100 * value / (maximum - 1)

/-- `Wizard._best_progress`: `best_list.index(best)` raises when `best` is
`None` or absent from the best list. -/
def _best_progress (w : Wizard) : Option Nat :=
  match w.best with
  | none => none
  | some b =>
    match pyIndex? w.bestList b with
    | none => none
    | some i => some (_progress i w.bestList.length)

/-- `Wizard._match_progress`. -/
def _match_progress (w : Wizard) : Nat :=
  _progress w.n_processed w.n_clusters

end Wizard

/-- A public wizard operation, as enumerated by claim C1. `setQuality` and
`setSimilarity` only store a function and are represented by the fact that the
quality and similarity arguments of `applyOp` are arbitrary. -/
inductive WizardOp where
  | start
  | pin (cluster : Option ClusterId)
  | unpin
  | nextBest
  | previousBest
  | nextMatch
  | previousMatch
  | next
  | previous
  | first
  | last
  | onClusterUpdate (up : ClusterUpdate)
deriving Repr

/-- Run one public operation on a wizard state; `none` means the call raised. -/
def applyOp (quality : ClusterId → Int) (similarity : ClusterId → ClusterId → Int)
    (op : WizardOp) (w : Wizard) : Option Wizard :=
  match op with
  | WizardOp.start => some (w.start quality)
  | WizardOp.pin cluster => w.pin quality similarity cluster
  | WizardOp.unpin => some w.unpin
  | WizardOp.nextBest => w.next_best quality similarity
  | WizardOp.previousBest => w.previous_best quality similarity
  | WizardOp.nextMatch => w.next_match quality similarity
  | WizardOp.previousMatch => w.previous_match
  | WizardOp.next => w.next quality similarity
  | WizardOp.previous => w.previous quality similarity
  | WizardOp.first => w.first
  | WizardOp.last => w.last
  | WizardOp.onClusterUpdate up => w.on_cluster quality similarity up

/-- Whether the operation runs the source's `_check()` on every state-changing
path (`pin` directly, `on_cluster` through `_update_selection`). -/
def opChecked (op : WizardOp) : Bool :=
  match op with
  | WizardOp.pin _ => true
  | WizardOp.onClusterUpdate _ => true
  | _ => false

/-- Well-formedness: no duplicate ids in the group map's keys nor in the two
lists (true of every state the wizard itself constructs). -/
def wfNodup (w : Wizard) : Prop :=
  w.keysList.Nodup ∧ w.bestList.Nodup ∧ w.matchList.Nodup

/-- The structural well-formedness carried through `_update_state`:
duplicate-free best and match lists whose members are known cluster ids. -/
@[reducible] def listsWF (w : Wizard) : Prop :=
  w.bestList.Nodup ∧ w.matchList.Nodup ∧
  (∀ c ∈ w.bestList, c ∈ w.keysList) ∧ (∀ c ∈ w.matchList, c ∈ w.keysList)

/-- Claim C7's reading of the best-progress value, written from the spec's
words for comparison with the source's `_best_progress`: position of `best`
in `bestList` divided by the length of `bestList`, as a percentage, with a
length-1 list reported as a degenerate 100%. -/
def bestProgressClaim (w : Wizard) : Option Nat :=
  match w.best with
  | none => none
  | some b =>
    match pyIndex? w.bestList b with
    | none => none
    | some i =>
      some (if w.bestList.length = 1 then 100 else 100 * i / w.bestList.length)

/-! ### Concrete instances used by counterexamples and witnesses -/

/-- Quality function used in concrete runs: the identity. -/
def qEx : ClusterId → Int := fun c => (c : Int)

/-- Similarity function used in concrete runs. -/
def sEx : ClusterId → ClusterId → Int := fun a b => (10 * a + b : Int)

/-- The state reached from `Wizard.init [1, 2]` by `start()` then `pin()`:
`bestList = [2, 1]`, `best = 2`, `matchList = [1]`, `match = 1`. -/
def wTwo : Wizard :=
  ⟨[(1, none), (2, none)], [2, 1], [1], some 2, some 1, History.init (none, none)⟩

/-- The state reached from `Wizard.init [1, 2, 3]` by `start()` then `pin()`:
`bestList = [3, 2, 1]`, `best = 3`, `matchList = [2, 1]`, `match = 2`. -/
def wThree : Wizard :=
  ⟨[(1, none), (2, none), (3, none)], [3, 2, 1], [2, 1], some 3, some 2,
    History.init (none, none)⟩

/-- The state reached from `wThree` by `nextBest(); nextBest(); nextMatch()`:
`best = 1` sits at the last position of `bestList` while `match = 2` is not
the head of `matchList = [3, 2]`. -/
def wAtEnd : Wizard :=
  ⟨[(1, none), (2, none), (3, none)], [3, 2, 1], [3, 2], some 1, some 2,
    History.init (none, none)⟩

/-- The state reached from `wTwo` by `nextBest()`: `best = 1`, `match = 2`. -/
def wTwoNav : Wizard :=
  ⟨[(1, none), (2, none)], [2, 1], [2], some 1, some 2, History.init (none, none)⟩

/-- A finished wizard state: `best` defined and a single-element best list. -/
def wFin : Wizard :=
  ⟨[(7, none)], [7], [], some 7, none, History.init (none, none)⟩

/-- A wizard state with a single-element best list at position 0. -/
def wOne : Wizard :=
  ⟨[(5, none)], [5], [], some 5, none, History.init (none, none)⟩

/-- A merge event combining clusters 1 and 2 into the new cluster 3. -/
def evMerge : ClusterUpdate :=
  ⟨some UpDescription.merge, [3], [1, 2], [(1, 3), (2, 3)], [], none, none⟩

/-- The undo-tagged event structurally inverting `evMerge`. -/
def evMergeUndo : ClusterUpdate :=
  ⟨some UpDescription.merge, [1, 2], [3], [(3, 1), (3, 2)], [], none,
    some HistoryTag.undo⟩

/-- A metadata event labeling cluster 1 as good. -/
def evMeta : ClusterUpdate :=
  ⟨some UpDescription.metadataGroup, [], [], [], [1], some ClusterGroup.good, none⟩

/-- The undo-tagged event structurally inverting `evMeta`. -/
def evMetaUndo : ClusterUpdate :=
  ⟨some UpDescription.metadataGroup, [], [], [], [1], none, some HistoryTag.undo⟩

/-- An event adding cluster 5 whose recorded parent 9 is unknown to the
wizard (absent from the group map and from the best list). -/
def evBadParent : ClusterUpdate :=
  ⟨none, [5], [], [(9, 5)], [], none, none⟩

/-- The state `wThree` after `on_cluster` processed `evMeta`: cluster 1 is
good and the history holds the pre- and post-event selection snapshots. -/
def wThreeMeta : Wizard :=
  ⟨[(1, some ClusterGroup.good), (2, none), (3, none)], [3, 2, 1], [2, 1],
    some 3, some 2, ⟨[(none, none), (some 3, some 2), (some 3, some 2)], 2⟩⟩

/-- The state `wThreeMeta` after `on_cluster` processed `evMetaUndo`: the
relabeling is reverted and the selection `(3, 2)` is restored from history. -/
def wThreeMetaUndo : Wizard :=
  ⟨[(1, none), (2, none), (3, none)], [3, 2, 1], [2, 1], some 3, some 2,
    ⟨[(none, none), (some 3, some 2), (some 3, some 2)], 1⟩⟩

/-- The state `wTwo` after `on_cluster` processed `evMerge`: the merge
deletes both old clusters, the new cluster 3 becomes both best and the sole
best-list entry, and the wizard is finished, so the subsequent undo event is
ignored. -/
def wTwoMerged : Wizard :=
  ⟨[(3, none)], [3], [3], some 3, none,
    ⟨[(none, none), (some 2, some 1), (some 3, none)], 2⟩⟩

/-! ### Helper lemmas -/

namespace Wizard

theorem eta (w : Wizard) :
    Wizard.mk w.clusterGroups w.bestList w.matchList w.best w.match_ w.history = w :=
  rfl

theorem pyIndex?_mem {l : List ClusterId} {a : ClusterId} {i : Nat}
    (h : pyIndex? l a = some i) : a ∈ l := by
  unfold pyIndex? at h
  rw [List.findIdx?_eq_some_iff_getElem] at h
  obtain ⟨hlt, ha, -⟩ := h
  simp only [decide_eq_true_eq] at ha
  exact ha ▸ List.getElem_mem hlt

theorem pyIndex?_ne_nil {l : List ClusterId} {a : ClusterId} {i : Nat}
    (h : pyIndex? l a = some i) : l ≠ [] := by
  intro he
  subst he
  simp [pyIndex?] at h

/-- Characterization of `_addOne` on a fresh cluster: the asserts pass and
the cluster is recorded in the group map and, depending on the selection, in
the lists. -/
theorem addOne_eq (w : Wizard) (clu : ClusterId) (g : Option ClusterGroup)
    (position : Option Nat)
    (hf1 : (w.clusterGroups.any (fun pr => pr.1 = clu)) = false)
    (hf2 : clu ∉ w.bestList) (hf3 : clu ∉ w.matchList) :
    w._addOne clu g position = some ⟨w.clusterGroups ++ [(clu, g)],
      (match w.best, position with
       | none, _ => w.bestList
       | some _, none => w.bestList ++ [clu]
       | some _, some p => pyInsert w.bestList p clu),
      (match w.match_ with
       | none => w.matchList
       | some _ => w.matchList ++ [clu]),
      w.best, w.match_, w.history⟩ := by
  unfold _addOne
  rw [if_neg (by simp [hf1, hf2, hf3])]

/-- Frame lemma for `_set_match_list`: it only changes the match list and the
match selection, the latter to the head of the new list when non-empty. -/
theorem set_match_list_frame {w w' : Wizard} {q : ClusterId → Int}
    {s : ClusterId → ClusterId → Int} {cluster : Option ClusterId}
    (h : w._set_match_list q s cluster = some w') :
    w'.bestList = w.bestList ∧ w'.best = w.best ∧
    w'.clusterGroups = w.clusterGroups ∧ w'.history = w.history ∧
    ((w'.matchList = [] ∧ w'.match_ = w.match_) ∨
      (w'.matchList ≠ [] ∧ w'.match_ = w'.matchList.head?)) := by
  unfold _set_match_list at h
  split at h
  · exact Option.noConfusion h
  · cases h
    exact ⟨rfl, rfl, rfl, rfl, Or.inl ⟨rfl, rfl⟩⟩
  · cases h
    exact ⟨rfl, rfl, rfl, rfl, Or.inr ⟨by simp, rfl⟩⟩

/-- When `best` is defined, `_set_match_list` with a defaulted cluster always
succeeds (no fallback to `best_clusters(1)[0]` is needed). -/
theorem set_match_list_of_best_some (w : Wizard) (q : ClusterId → Int)
    (s : ClusterId → ClusterId → Int) (b : ClusterId) (hb : w.best = some b) :
    ∃ w', w._set_match_list q s none = some w' := by
  unfold _set_match_list defaultToBest
  simp only [hb]
  rcases hms : w.most_similar_clusters q s (some b) none with _ | L
  · simp [most_similar_clusters] at hms
  · rcases L with _ | ⟨c, rest⟩
    · exact ⟨_, rfl⟩
    · exact ⟨_, rfl⟩

/-- Clamping at the top end of the best list: `next_best` keeps `best` and
every field other than the match list and match selection; when no match is
pinned it is a complete no-op. -/
theorem next_best_at_end (w : Wizard) (q : ClusterId → Int)
    (s : ClusterId → ClusterId → Int) (b : ClusterId) (hb : w.best = some b)
    (hi : pyIndex? w.bestList b = some (w.bestList.length - 1)) :
    ∃ w', w.next_best q s = some w' ∧ w'.best = some b ∧
      w'.bestList = w.bestList ∧ w'.clusterGroups = w.clusterGroups ∧
      w'.history = w.history ∧ (w.match_ = none → w' = w) := by
  by_cases hf : w._has_finished = true
  · exact ⟨w, by simp [next_best, hf], hb, rfl, rfl, rfl, fun _ => rfl⟩
  · have hww : { w with best := some b } = w := by rw [← hb]
    have hnext : _next w.bestList w.best = some (some b) := by
      unfold _next
      rw [hb, if_neg (pyIndex?_ne_nil hi)]
      simp [hi]
    have hset : w.setBestValue (some b) = some w := by
      simp [setBestValue, pyIndex?_mem hi, hww]
    rcases hm : w.match_ with _ | m
    · refine ⟨w, ?_, hb, rfl, rfl, rfl, fun _ => rfl⟩
      rw [next_best, if_neg hf, hnext]
      simp only [hset, hm]
    · obtain ⟨w', hw'⟩ := set_match_list_of_best_some w q s b hb
      obtain ⟨h1, h2, h3, h4, -⟩ := set_match_list_frame hw'
      refine ⟨w', ?_, h2.trans hb, h1, h3, h4, fun hc => absurd hc (by simp)⟩
      rw [next_best, if_neg hf, hnext]
      simp only [hset, hm, hw']

/-- Clamping at the bottom end of the best list: symmetric to
`next_best_at_end`. -/
theorem previous_best_at_first (w : Wizard) (q : ClusterId → Int)
    (s : ClusterId → ClusterId → Int) (b : ClusterId) (hb : w.best = some b)
    (hi : pyIndex? w.bestList b = some 0) :
    ∃ w', w.previous_best q s = some w' ∧ w'.best = some b ∧
      w'.bestList = w.bestList ∧ w'.clusterGroups = w.clusterGroups ∧
      w'.history = w.history ∧ (w.match_ = none → w' = w) := by
  by_cases hf : w._has_finished = true
  · exact ⟨w, by simp [previous_best, hf], hb, rfl, rfl, rfl, fun _ => rfl⟩
  · have hww : { w with best := some b } = w := by rw [← hb]
    have hprev : _previous w.bestList w.best = some (some b) := by
      unfold _previous
      rw [hb]
      simp [hi]
    have hset : w.setBestValue (some b) = some w := by
      simp [setBestValue, pyIndex?_mem hi, hww]
    rcases hm : w.match_ with _ | m
    · refine ⟨w, ?_, hb, rfl, rfl, rfl, fun _ => rfl⟩
      rw [previous_best, if_neg hf, hprev]
      simp only [hset, hm]
    · obtain ⟨w', hw'⟩ := set_match_list_of_best_some w q s b hb
      obtain ⟨h1, h2, h3, h4, -⟩ := set_match_list_frame hw'
      refine ⟨w', ?_, h2.trans hb, h1, h3, h4, fun hc => absurd hc (by simp)⟩
      rw [previous_best, if_neg hf, hprev]
      simp only [hset, hm, hw']

/-- Clamping at the top end of the match list, when the match list has at
least two entries (so that `next_match` does not delegate to `next_best`). -/
theorem next_match_at_end (w : Wizard) (q : ClusterId → Int)
    (s : ClusterId → ClusterId → Int) (m : ClusterId) (hm : w.match_ = some m)
    (hlen : 2 ≤ w.matchList.length)
    (hi : pyIndex? w.matchList m = some (w.matchList.length - 1)) :
    w.next_match q s = some w := by
  have hcond : (w.match_.isSome && w.matchList.length ≤ 1) = false := by
    simp only [hm, Option.isSome_some, Bool.true_and, decide_eq_false_iff_not]
    omega
  have hww : { w with match_ := some m } = w := by rw [← hm]
  have hnext : _next w.matchList w.match_ = some (some m) := by
    unfold _next
    rw [hm, if_neg (pyIndex?_ne_nil hi)]
    simp [hi]
  rw [next_match, if_neg (by simp [hcond]), hnext]
  simp [setMatchValue, pyIndex?_mem hi, hww]

/-- Clamping at the bottom end of the match list. -/
theorem previous_match_at_first (w : Wizard) (m : ClusterId)
    (hm : w.match_ = some m) (hi : pyIndex? w.matchList m = some 0) :
    w.previous_match = some w := by
  have hww : { w with match_ := some m } = w := by rw [← hm]
  have hprev : _previous w.matchList w.match_ = some (some m) := by
    unfold _previous
    rw [hm]
    simp [hi]
  rw [previous_match, hprev]
  simp [setMatchValue, pyIndex?_mem hi, hww]

end Wizard

/-! ### Claim theorems -/

open Wizard in
/-- C9 (confirmed): if the wizard has finished (best defined and at most one
element in the best list), `on_cluster` returns immediately for every event,
leaving the group map, the lists, the selection and the history unchanged. -/
theorem claim_C9_on_cluster_finished_noop (w : Wizard) (q : ClusterId → Int)
    (s : ClusterId → ClusterId → Int) (up : ClusterUpdate)
    (h : w._has_finished = true) : w.on_cluster q s up = some w := by
  rw [Wizard.on_cluster, if_pos h]

/-- Witness for C9 at a concrete finished state and a merge event. -/
theorem claim_C9_witness :
    wFin._has_finished = true ∧ wFin.on_cluster qEx sEx evMerge = some wFin :=
  ⟨by decide, claim_C9_on_cluster_finished_noop wFin qEx sEx evMerge (by decide)⟩

open Wizard in
/-- C10 (confirmed): with no match pinned and an empty match list,
`next_match` leaves the whole state unchanged while `previous_match` raises
(`_previous` raises `RuntimeError` because `None` is not in the empty list). -/
theorem claim_C10_empty_match_navigation (w : Wizard) (q : ClusterId → Int)
    (s : ClusterId → ClusterId → Int) (hm : w.match_ = none)
    (hl : w.matchList = []) :
    w.next_match q s = some w ∧ w.previous_match = none := by
  constructor
  · rw [Wizard.next_match, if_neg (by simp [hm])]
    rw [hl, hm]
    show some { w with match_ := none } = some w
    rw [← hm]
  · rw [Wizard.previous_match, hm]
    rfl

/-- Witness for C10 at the freshly-constructed wizard on clusters 1 and 2. -/
theorem claim_C10_witness :
    (Wizard.init [1, 2]).next_match qEx sEx = some (Wizard.init [1, 2]) ∧
    (Wizard.init [1, 2]).previous_match = none :=
  claim_C10_empty_match_navigation (Wizard.init [1, 2]) qEx sEx (by rfl) (by rfl)

/-- C7 (corrected), counterexample to the claim as stated: on a best list of
length 1 with `best` at position 0, the source's `_best_progress` returns `1`
(the degenerate value of `_progress`), not the claimed degenerate `100`, and
in general the source divides by `length - 1`, not by the length. -/
theorem claim_C7_counterexample :
    wOne._best_progress ≠ bestProgressClaim wOne := by decide

open Wizard in
/-- C7 (corrected), amended: the best-progress value is
`100 * (position of best in bestList) / (length of bestList - 1)` truncated,
with the degenerate value `1` when the length is at most 1; the
labeled-progress value is `100 * (count of Good and Ignored clusters in
bestList) / (total cluster count - 1)` truncated, with the degenerate value
`1` when there is at most one cluster. -/
theorem claim_C7_progress_formulas (w : Wizard) (b : ClusterId) (i : Nat)
    (hb : w.best = some b) (hi : pyIndex? w.bestList b = some i) :
    w._best_progress = some (if w.bestList.length ≤ 1 then 1
      else 100 * i / (w.bestList.length - 1)) ∧
    w._match_progress = (if w.clusterGroups.length ≤ 1 then 1
      else 100 * ((w.bestList.filter (fun c =>
          w._group c = some ClusterGroup.good ∨
          w._group c = some ClusterGroup.ignored)).length) /
        (w.clusterGroups.length - 1)) := by
  constructor
  · rw [Wizard._best_progress, hb]
    simp only [hi]
    rfl
  · have hn : w.n_clusters = w.clusterGroups.length := by
      simp [Wizard.n_clusters, Wizard.cluster_ids, Wizard.keysList]
    have hp : w.n_processed = (w.bestList.filter (fun c =>
        w._group c = some ClusterGroup.good ∨
        w._group c = some ClusterGroup.ignored)).length := by
      rw [Wizard.n_processed, Wizard._in_groups]
      congr 1
      apply List.filter_congr
      intro x _
      rcases w._group x with _ | g
      · simp
      · cases g <;> simp
    rw [Wizard._match_progress, Wizard._progress, hn, hp]

/-- Witness for C7 at a concrete state with a two-element best list. -/
theorem claim_C7_witness :
    wTwo.best = some 2 ∧ pyIndex? wTwo.bestList 2 = some 0 ∧
    wTwo._best_progress = some 0 ∧ wTwo._match_progress = 0 := by
  refine ⟨by decide, by decide, ?_⟩
  have h := claim_C7_progress_formulas wTwo 2 0 (by decide) (by decide)
  constructor
  · rw [h.1]
    decide
  · rw [h.2]
    decide

/-- C5 (corrected), counterexample to the claim as stated: from the state
reached by `start(); pin()` on clusters 1, 2, 3 (`best = 3`), calling
`pin(1)` and then `unpin()` leaves `best = 1`: `pin(c)` sets `best = c`, so
`best` is not restored to its value from before the `pin(c)` call. -/
theorem claim_C5_counterexample :
    wThree.best = some 3 ∧
    (wThree.pin qEx sEx (some 1)).map (fun w1 => w1.unpin.best) = some (some 1) := by
  decide

open Wizard in
/-- C5 (corrected), amended: for every cluster `c`, if the wizard has not
finished and `pin(c)` succeeds, then `unpin()` leaves `match` undefined and
`matchList` empty, leaves `bestList` unchanged, and leaves `best = c` — which
equals its value from before the `pin(c)` call only when `c` was already the
best cluster. -/
theorem claim_C5_pin_unpin (w : Wizard) (q : ClusterId → Int)
    (s : ClusterId → ClusterId → Int) (c : ClusterId) (w1 : Wizard)
    (hf : w._has_finished = false)
    (hp : w.pin q s (some c) = some w1) :
    w1.unpin.match_ = none ∧ w1.unpin.matchList = [] ∧
    w1.unpin.bestList = w.bestList ∧ w1.unpin.best = some c := by
  rw [Wizard.pin, if_neg (by simp [hf])] at hp
  rw [show w.defaultToBest (some c) = some c from rfl] at hp
  by_cases hc : (w.match_.isSome && w.best = some c) = true
  · rw [if_pos hc] at hp
    cases hp
    obtain ⟨hms, hbc⟩ := Bool.and_eq_true_iff.mp hc
    obtain ⟨m, hm⟩ := Option.isSome_iff_exists.mp hms
    rw [Wizard.unpin, hm]
    refine ⟨rfl, rfl, rfl, ?_⟩
    exact of_decide_eq_true hbc
  · rw [if_neg hc] at hp
    split at hp
    · exact Option.noConfusion hp
    · rename_i wA hsb
      have hA : wA = { w with best := some c } := by
        rw [Wizard.setBestValue] at hsb
        by_cases hmem : c ∈ w.bestList
        · rw [if_pos hmem] at hsb
          exact (Option.some.injEq _ _ ▸ hsb).symm
        · rw [if_neg hmem] at hsb
          exact Option.noConfusion hsb
      split at hp
      · exact Option.noConfusion hp
      · rename_i wB hsm
        obtain ⟨f1, f2, f3, f4, hml⟩ := set_match_list_frame hsm
        split at hp
        · cases hp
          rcases hml with ⟨hml1, hml2⟩ | ⟨hml1, hml2⟩
          · rcases hm1 : w1.match_ with _ | m
            · rw [Wizard.unpin, hm1]
              exact ⟨hm1, hml1, f1.trans (by rw [hA]), f2.trans (by rw [hA])⟩
            · rw [Wizard.unpin, hm1]
              exact ⟨rfl, rfl, f1.trans (by rw [hA]), f2.trans (by rw [hA])⟩
          · rcases hL : w1.matchList with _ | ⟨x, xs⟩
            · exact absurd hL hml1
            · rw [hL] at hml2
              simp only [List.head?] at hml2
              rw [Wizard.unpin, hml2]
              refine ⟨rfl, rfl, ?_, ?_⟩
              · show w1.bestList = w.bestList
                rw [f1, hA]
              · show w1.best = some c
                rw [f2, hA]
        · exact Option.noConfusion hp

/-- Witness for C5 at a concrete pin of cluster 2 from the three-cluster
state. -/
theorem claim_C5_witness :
    wThree._has_finished = false ∧
    ∃ w1, wThree.pin qEx sEx (some 2) = some w1 ∧
      w1.unpin.match_ = none ∧ w1.unpin.matchList = [] ∧
      w1.unpin.bestList = wThree.bestList ∧ w1.unpin.best = some 2 := by
  refine ⟨by decide, ?_⟩
  rcases hp : wThree.pin qEx sEx (some 2) with _ | w1
  · exact absurd hp (by decide)
  · exact ⟨w1, rfl, claim_C5_pin_unpin wThree qEx sEx 2 w1 (by decide) hp⟩

/-- C6 (corrected), counterexample to the claim as stated: in the reachable
state `wAtEnd` (best = 1 is the last element of `bestList = [3, 2, 1]`, match
= 2 inside `matchList = [3, 2]`), `nextBest()` is not a no-op: because a
match is pinned, it rebuilds the match list and resets `match` to its head
(3), so the state after the call differs from the state before. -/
theorem claim_C6_counterexample :
    wAtEnd.best = some 1 ∧
    pyIndex? wAtEnd.bestList 1 = some (wAtEnd.bestList.length - 1) ∧
    wAtEnd.next_best qEx sEx ≠ some wAtEnd := by decide

open Wizard in
/-- C6 (corrected), amended: calling `nextBest()` when `best` is already the
last element of `bestList` leaves `best`, `bestList`, the group map and the
history unchanged; it is a complete no-op exactly when no match is pinned —
when a match is pinned the call additionally rebuilds the match list and
resets `match` to its head. -/
theorem claim_C6_next_best_at_end :
    (∀ (w : Wizard) (q : ClusterId → Int) (s : ClusterId → ClusterId → Int)
      (b : ClusterId), w.match_ = none → w.best = some b →
      pyIndex? w.bestList b = some (w.bestList.length - 1) →
      w.next_best q s = some w) ∧
    (∀ (w w' : Wizard) (q : ClusterId → Int) (s : ClusterId → ClusterId → Int)
      (b : ClusterId), w.best = some b →
      pyIndex? w.bestList b = some (w.bestList.length - 1) →
      w.next_best q s = some w' →
      w'.best = some b ∧ w'.bestList = w.bestList ∧
      w'.clusterGroups = w.clusterGroups ∧ w'.history = w.history) := by
  constructor
  · intro w q s b hm hb hi
    obtain ⟨w', hcall, -, -, -, -, hnoop⟩ := next_best_at_end w q s b hb hi
    rw [hcall, hnoop hm]
  · intro w w' q s b hb hi hcall
    obtain ⟨w'', hcall', h1, h2, h3, h4, -⟩ := next_best_at_end w q s b hb hi
    rw [hcall] at hcall'
    cases hcall'
    exact ⟨h1, h2, h3, h4⟩

/-- Witness for C6 at a concrete unpinned state with `best` at the end. -/
theorem claim_C6_witness :
    wOne.match_ = none ∧ wOne.best = some 5 ∧
    pyIndex? wOne.bestList 5 = some (wOne.bestList.length - 1) ∧
    wOne.next_best qEx sEx = some wOne :=
  ⟨by decide, by decide, by decide,
    claim_C6_next_best_at_end.1 wOne qEx sEx 5 (by decide) (by decide) (by decide)⟩

/-- C8 (corrected), counterexample to the claim as stated: in the reachable
state `wTwo`, `match = 1` is a member of the traversed `matchList = [1]` and
sits at its end, yet `nextMatch()` does not return the current element
unchanged: with a match list of at most one entry it delegates to
`nextBest()`, which moves `best` to 2's successor and resets `match` to the
head of the rebuilt match list (2). -/
theorem claim_C8_counterexample :
    wTwo.match_ = some 1 ∧
    pyIndex? wTwo.matchList 1 = some (wTwo.matchList.length - 1) ∧
    (wTwo.next_match qEx sEx).map (fun w => w.match_) = some (some 2) := by
  decide

open Wizard in
/-- C8 (corrected), amended: for the navigation calls made while the current
element is a member of the list being traversed, an attempted move past
either end of the list succeeds without raising and leaves the traversed
element unchanged (no wraparound) — except `nextMatch` (and `next` while
pinned), which delegates to `nextBest` when the match list has at most one
entry; with at least two entries the clamping behaviour holds. -/
theorem claim_C8_navigation_clamps :
    (∀ (w : Wizard) (q : ClusterId → Int) (s : ClusterId → ClusterId → Int)
      (b : ClusterId), w.best = some b →
      pyIndex? w.bestList b = some (w.bestList.length - 1) →
      ∃ w', w.next_best q s = some w' ∧ w'.best = some b) ∧
    (∀ (w : Wizard) (q : ClusterId → Int) (s : ClusterId → ClusterId → Int)
      (b : ClusterId), w.best = some b → pyIndex? w.bestList b = some 0 →
      ∃ w', w.previous_best q s = some w' ∧ w'.best = some b) ∧
    (∀ (w : Wizard) (q : ClusterId → Int) (s : ClusterId → ClusterId → Int)
      (m : ClusterId), w.match_ = some m → 2 ≤ w.matchList.length →
      pyIndex? w.matchList m = some (w.matchList.length - 1) →
      w.next_match q s = some w) ∧
    (∀ (w : Wizard) (m : ClusterId), w.match_ = some m →
      pyIndex? w.matchList m = some 0 →
      w.previous_match = some w) ∧
    (∀ (w : Wizard) (q : ClusterId → Int) (s : ClusterId → ClusterId → Int)
      (b : ClusterId), w.match_ = none → w.best = some b →
      pyIndex? w.bestList b = some (w.bestList.length - 1) →
      w.next q s = some w) ∧
    (∀ (w : Wizard) (q : ClusterId → Int) (s : ClusterId → ClusterId → Int)
      (m : ClusterId), w.match_ = some m → 2 ≤ w.matchList.length →
      pyIndex? w.matchList m = some (w.matchList.length - 1) →
      w.next q s = some w) ∧
    (∀ (w : Wizard) (q : ClusterId → Int) (s : ClusterId → ClusterId → Int)
      (b : ClusterId), w.match_ = none → w.best = some b →
      pyIndex? w.bestList b = some 0 →
      w.previous q s = some w) ∧
    (∀ (w : Wizard) (q : ClusterId → Int) (s : ClusterId → ClusterId → Int)
      (m : ClusterId), w.match_ = some m → pyIndex? w.matchList m = some 0 →
      w.previous q s = some w) := by
  refine ⟨?_, ?_, ?_, ?_, ?_, ?_, ?_, ?_⟩
  · intro w q s b hb hi
    obtain ⟨w', hcall, hbest, -⟩ := next_best_at_end w q s b hb hi
    exact ⟨w', hcall, hbest⟩
  · intro w q s b hb hi
    obtain ⟨w', hcall, hbest, -⟩ := previous_best_at_first w q s b hb hi
    exact ⟨w', hcall, hbest⟩
  · exact fun w q s m hm hlen hi => next_match_at_end w q s m hm hlen hi
  · exact fun w m hm hi => previous_match_at_first w m hm hi
  · intro w q s b hm hb hi
    obtain ⟨w', hcall, -, -, -, -, hnoop⟩ := next_best_at_end w q s b hb hi
    rw [Wizard.next, hm, hcall, hnoop hm]
  · intro w q s m hm hlen hi
    rw [Wizard.next, hm, next_match_at_end w q s m hm hlen hi]
  · intro w q s b hm hb hi
    obtain ⟨w', hcall, -, -, -, -, hnoop⟩ := previous_best_at_first w q s b hb hi
    rw [Wizard.previous, hm, hcall, hnoop hm]
  · intro w q s m hm hi
    rw [Wizard.previous, hm, previous_match_at_first w m hm hi]

/-- Witness for C8: clamping observed at concrete states (a best cursor at
the end of the best list, and a match cursor at both ends of a two-element
match list). -/
theorem claim_C8_witness :
    (∃ w', wOne.next_best qEx sEx = some w' ∧ w'.best = some 5) ∧
    wAtEnd.next_match qEx sEx = some wAtEnd ∧
    wThree.previous_match = some wThree :=
  ⟨claim_C8_navigation_clamps.1 wOne qEx sEx 5 (by decide) (by decide),
    claim_C8_navigation_clamps.2.2.1 wAtEnd qEx sEx 2 (by decide) (by decide)
      (by decide),
    claim_C8_navigation_clamps.2.2.2.1 wThree 2 (by decide) (by decide)⟩

/-- C3 (corrected), counterexample to the claim as stated: from the reachable
state `wThree` (all four invariants hold), an event adding cluster 5 with
recorded parent 9 — a parent absent from the non-empty best list — makes
`on_cluster` raise (`best_list.index(parent)` raises `ValueError`); the new
id is not appended to `bestList` as the claim states. -/
theorem claim_C3_counterexample :
    wThree.checkB = true ∧ wThree.best.isSome ∧
    wThree.on_cluster qEx sEx evBadParent = none := by decide

open Wizard in
/-- C3 (corrected), amended: during `onClusterUpdate`, each added cluster id
is inserted into the group map with the group of the first parent in
`descendants` whose child component equals the added id; when `bestList` is
non-empty, the added id is inserted into `bestList` at the position its
parent currently occupies there if `best` is defined — but when the parent is
absent from the non-empty `bestList` the update raises an error instead of
appending; only when `bestList` is empty (and `best` is defined) is the added
id appended; if `match` is defined the added id is appended to `matchList`.
Stated for a single-added-cluster event with no deletions. -/
theorem claim_C3_update_state_add (w : Wizard) (up : ClusterUpdate)
    (a p : ClusterId) (hdesc : up.description = none) (hadd : up.added = [a])
    (hdel : up.deleted = [])
    (hpar : ((up.descendants.filter (fun pr => pr.2 = a)).map Prod.fst).head? = some p)
    (hf1 : (w.clusterGroups.any (fun pr => pr.1 = a)) = false)
    (hf2 : a ∉ w.bestList) (hf3 : a ∉ w.matchList) :
    (w.bestList ≠ [] → pyIndex? w.bestList p = none → w._update_state up = none) ∧
    (∀ i, pyIndex? w.bestList p = some i →
      w._update_state up = some ⟨w.clusterGroups ++ [(a, w._group p)],
        (match w.best with
         | some _ => pyInsert w.bestList i a
         | none => w.bestList),
        (match w.match_ with
         | none => w.matchList
         | some _ => w.matchList ++ [a]),
        w.best, w.match_, w.history⟩) ∧
    (w.bestList = [] →
      w._update_state up = some ⟨w.clusterGroups ++ [(a, w._group p)],
        (match w.best with
         | some _ => [a]
         | none => []),
        (match w.match_ with
         | none => w.matchList
         | some _ => w.matchList ++ [a]),
        w.best, w.match_, w.history⟩) := by
  have hmeta : w._update_state_meta up = some w := by
    rw [Wizard._update_state_meta, hdesc]
  have hstep : w._update_state up =
      match Wizard._update_state_add up w a with
      | none => none
      | some w2 => some (w2._delete []) := by
    rw [Wizard._update_state, hmeta, hadd, hdel]
    show (match List.foldlM (Wizard._update_state_add up) w [a] with
          | none => none
          | some w2 => some (w2._delete [])) =
      match Wizard._update_state_add up w a with
      | none => none
      | some w2 => some (w2._delete [])
    rw [List.foldlM_cons]
    rcases Wizard._update_state_add up w a with _ | w2 <;> rfl
  refine ⟨?_, ?_, ?_⟩
  · intro hbl hi
    rcases hl : w.bestList with _ | ⟨x, xs⟩
    · exact absurd hl hbl
    · rw [hl] at hi
      rw [hstep, Wizard._update_state_add, hpar, hl]
      show (match (match pyIndex? (x :: xs) p with
            | none => none
            | some j => w._addOne a (w._group p) (some j)) with
          | none => none
          | some w2 => some (w2._delete [])) = none
      rw [hi]
  · intro i hi
    rcases hl : w.bestList with _ | ⟨x, xs⟩
    · rw [hl] at hi
      simp [pyIndex?] at hi
    · have hf2x : a ∉ x :: xs := hl ▸ hf2
      rw [hl] at hi
      rw [hstep, Wizard._update_state_add, hpar, hl]
      show (match (match pyIndex? (x :: xs) p with
            | none => none
            | some j => w._addOne a (w._group p) (some j)) with
          | none => none
          | some w2 => some (w2._delete [])) = _
      rw [hi]
      show (match w._addOne a (w._group p) (some i) with
          | none => none
          | some w2 => some (w2._delete [])) = _
      rw [Wizard.addOne_eq w a (w._group p) (some i) hf1 hf2 hf3, hl]
      rcases w.best with _ | b <;> rcases w.match_ with _ | m <;> rfl
  · intro hbl
    rw [hstep, Wizard._update_state_add, hpar, hbl]
    show (match w._addOne a (w._group p) none with
          | none => none
          | some w2 => some (w2._delete [])) = _
    rw [Wizard.addOne_eq w a (w._group p) none hf1 hf2 hf3, hbl]
    rcases w.best with _ | b <;> rcases w.match_ with _ | m <;> rfl

/-- Witness for C3: a concrete add through `_update_state` lands at its
parent's position with its parent's group; the raising branch is exercised
with an absent parent. -/
theorem claim_C3_witness :
    (wThree._update_state ⟨none, [5], [], [(2, 5)], [], none, none⟩ =
      some ⟨[(1, none), (2, none), (3, none), (5, none)], [3, 5, 2, 1], [2, 1, 5],
        some 3, some 2, History.init (none, none)⟩) ∧
    (wThree._update_state ⟨none, [5], [], [(9, 5)], [], none, none⟩ = none) := by
  constructor
  · have h := (claim_C3_update_state_add wThree ⟨none, [5], [], [(2, 5)], [], none, none⟩
      5 2 rfl rfl rfl (by decide) (by decide) (by decide) (by decide)).2.1 1 (by decide)
    rw [h]
    decide
  · have h := (claim_C3_update_state_add wThree ⟨none, [5], [], [(9, 5)], [], none, none⟩
      5 9 rfl rfl rfl (by decide) (by decide) (by decide) (by decide)).1 (by decide) (by decide)
    exact h

namespace Wizard

/-- `_best_clusters` output is in weakly decreasing order of quality. -/
theorem best_clusters_pairwise (cl : List ClusterId) (f : ClusterId → Int)
    (n_max : Option Nat) :
    (_best_clusters cl f n_max).Pairwise (fun a b => f b ≤ f a) := by
  have hsorted : ((cl.map (fun c => (c, f c))).insertionSort
      (fun a b => b.2 ≤ a.2)).Pairwise (fun a b : ClusterId × Int => b.2 ≤ a.2) := by
    haveI : IsTotal (ClusterId × Int) (fun a b => b.2 ≤ a.2) :=
      ⟨fun a b => le_total b.2 a.2⟩
    haveI : IsTrans (ClusterId × Int) (fun a b => b.2 ≤ a.2) :=
      ⟨fun _ _ _ hab hbc => le_trans hbc hab⟩
    exact List.sorted_insertionSort _ _
  have hr : ((cl.map (fun c => (c, f c))).insertionSort
      (fun a b => b.2 ≤ a.2)).Pairwise (fun a b : ClusterId × Int => f b.1 ≤ f a.1) := by
    refine hsorted.imp_of_mem ?_
    intro a b ha hb hab
    have ha' : a.2 = f a.1 := by
      rcases List.mem_map.mp ((List.mem_insertionSort _).mp ha) with ⟨c, -, rfl⟩
      rfl
    have hb' : b.2 = f b.1 := by
      rcases List.mem_map.mp ((List.mem_insertionSort _).mp hb) with ⟨c, -, rfl⟩
      rfl
    rw [ha', hb'] at hab
    exact hab
  have hmap : (((cl.map (fun c => (c, f c))).insertionSort
      (fun a b => b.2 ≤ a.2)).map Prod.fst).Pairwise (fun a b => f b ≤ f a) :=
    List.pairwise_map.mpr hr
  unfold _best_clusters _argsort
  rcases n_max with _ | k
  · exact hmap
  · rcases k with _ | k
    · exact hmap
    · exact hmap.sublist (List.take_sublist _ _)

/-- The three-way partition `_sort · false` is a permutation of its input. -/
theorem sort3_perm (w : Wizard) (l : List ClusterId) : (w._sort l false).Perm l := by
  have hp0 := List.filter_append_perm
    (fun c => decide (w._group c ∈ [(none : Option ClusterGroup)])) l
  have hp1 := List.filter_append_perm
    (fun c => decide (w._group c ∈ [some ClusterGroup.good]))
    (l.filter (fun c => !decide (w._group c ∈ [(none : Option ClusterGroup)])))
  have e1 : (l.filter (fun c => !decide (w._group c ∈ [(none : Option ClusterGroup)]))).filter
      (fun c => decide (w._group c ∈ [some ClusterGroup.good])) =
      l.filter (fun c => decide (w._group c ∈ [some ClusterGroup.good])) := by
    rw [List.filter_filter]
    apply List.filter_congr
    intro x _
    rcases w._group x with _ | g
    · simp
    · cases g <;> simp
  have e2 : (l.filter (fun c => !decide (w._group c ∈ [(none : Option ClusterGroup)]))).filter
      (fun c => !decide (w._group c ∈ [some ClusterGroup.good])) =
      l.filter (fun c => decide (w._group c ∈ [some ClusterGroup.ignored])) := by
    rw [List.filter_filter]
    apply List.filter_congr
    intro x _
    rcases w._group x with _ | g
    · simp
    · cases g <;> simp
  rw [e1, e2] at hp1
  show (l.filter (fun c => decide (w._group c ∈ [(none : Option ClusterGroup)])) ++
      l.filter (fun c => decide (w._group c ∈ [some ClusterGroup.good])) ++
      l.filter (fun c => decide (w._group c ∈ [some ClusterGroup.ignored]))).Perm l
  refine List.Perm.trans ?_ hp0
  rw [List.append_assoc]
  exact List.Perm.append_left _ hp1

end Wizard

namespace Wizard

/-- Filtering a group-filter by the same group keeps it. -/
theorem in_groups_idem (w : Wizard) (g1 : Option ClusterGroup) (m : List ClusterId) :
    (m.filter (fun c => decide (w._group c ∈ [g1]))).filter
      (fun c => decide (w._group c ∈ [g1])) =
    m.filter (fun c => decide (w._group c ∈ [g1])) := by
  rw [List.filter_filter]
  exact List.filter_congr (fun x _ => Bool.and_self _)

/-- Filtering a group-filter by a different group empties it. -/
theorem in_groups_disjoint (w : Wizard) (g1 g2 : Option ClusterGroup)
    (hne : g1 ≠ g2) (m : List ClusterId) :
    (m.filter (fun c => decide (w._group c ∈ [g1]))).filter
      (fun c => decide (w._group c ∈ [g2])) = [] := by
  rw [List.filter_filter]
  have h : ∀ x ∈ m,
      (decide (w._group x ∈ [g2]) && decide (w._group x ∈ [g1])) = false := by
    intro x _
    by_cases h1 : w._group x = g1 <;> by_cases h2 : w._group x = g2 <;> simp_all
  rw [List.filter_congr h]
  exact List.filter_false m

end Wizard

open Wizard in
/-- C4 (confirmed): `best_clusters(n_max, quality)` scores every known
cluster, sorts descending by score, returns the full ranking (a permutation
of the cluster ids) when `n_max` is 0 or undefined and exactly `k` ids when
`n_max = k` with `0 < k < n`, and partitions the returned sequence in the
order unsorted, good, ignored while preserving weakly-descending quality
within each partition. It is a pure function of the state: no wizard field is
touched (in this embedding it returns a value without producing a new
state). -/
theorem claim_C4_best_clusters (w : Wizard) (q : ClusterId → Int) :
    (w.best_clusters q (some 0) = w.best_clusters q none) ∧
    (w.best_clusters q none).Perm w.cluster_ids ∧
    (∀ k, 0 < k → k < w.n_clusters → (w.best_clusters q (some k)).length = k) ∧
    (∀ n_max, w.best_clusters q n_max =
      w._in_groups (w.best_clusters q n_max) [none] ++
      w._in_groups (w.best_clusters q n_max) [some ClusterGroup.good] ++
      w._in_groups (w.best_clusters q n_max) [some ClusterGroup.ignored]) ∧
    (∀ (n_max : Option Nat) (gv : Option ClusterGroup),
      (w._in_groups (w.best_clusters q n_max) [gv]).Pairwise
        (fun a b => q b ≤ q a)) := by
  have hpart : ∀ n_max, w.best_clusters q n_max =
      (_best_clusters w.cluster_ids q n_max).filter
        (fun c => decide (w._group c ∈ [(none : Option ClusterGroup)])) ++
      (_best_clusters w.cluster_ids q n_max).filter
        (fun c => decide (w._group c ∈ [some ClusterGroup.good])) ++
      (_best_clusters w.cluster_ids q n_max).filter
        (fun c => decide (w._group c ∈ [some ClusterGroup.ignored])) :=
    fun _ => rfl
  have hcomp : ∀ (n_max : Option Nat) (gv : Option ClusterGroup),
      w._in_groups (w.best_clusters q n_max) [gv] =
      (_best_clusters w.cluster_ids q n_max).filter
        (fun c => decide (w._group c ∈ [gv])) := by
    intro n_max gv
    show (w.best_clusters q n_max).filter (fun c => decide (w._group c ∈ [gv])) = _
    rw [hpart n_max, List.filter_append, List.filter_append]
    rcases gv with _ | g
    · rw [in_groups_idem, in_groups_disjoint w (some ClusterGroup.good) none (by simp),
        in_groups_disjoint w (some ClusterGroup.ignored) none (by simp),
        List.append_nil, List.append_nil]
    · cases g
      · rw [in_groups_disjoint w none (some ClusterGroup.good) (by simp), in_groups_idem,
          in_groups_disjoint w (some ClusterGroup.ignored) (some ClusterGroup.good) (by simp),
          List.nil_append, List.append_nil]
      · rw [in_groups_disjoint w none (some ClusterGroup.ignored) (by simp),
          in_groups_disjoint w (some ClusterGroup.good) (some ClusterGroup.ignored) (by simp),
          in_groups_idem, List.nil_append, List.nil_append]
  refine ⟨rfl, ?_, ?_, ?_, ?_⟩
  · refine (sort3_perm w _).trans ?_
    have h1 : (_best_clusters w.cluster_ids q none).Perm
        ((w.cluster_ids.map (fun c => (c, q c))).map Prod.fst) :=
      (List.perm_insertionSort _ _).map Prod.fst
    refine h1.trans ?_
    have h2 : ((w.cluster_ids.map (fun c => (c, q c))).map Prod.fst) = w.cluster_ids := by
      rw [List.map_map]
      exact List.map_id'' (fun x => rfl) _
    rw [h2]
  · intro k hk0 hkn
    rcases k with _ | k0
    · omega
    · have h1 : (w.best_clusters q (some (k0 + 1))).length =
          (_best_clusters w.cluster_ids q (some (k0 + 1))).length :=
        (sort3_perm w _).length_eq
      have h2 : _best_clusters w.cluster_ids q (some (k0 + 1)) =
          (((w.cluster_ids.map (fun c => (c, q c))).insertionSort
            (fun a b => b.2 ≤ a.2)).map Prod.fst).take (k0 + 1) := rfl
      rw [h1, h2, List.length_take, List.length_map, List.length_insertionSort,
        List.length_map]
      have hn : w.n_clusters = w.cluster_ids.length := rfl
      rw [hn] at hkn
      omega
  · intro n_max
    rw [hcomp n_max none, hcomp n_max (some ClusterGroup.good),
      hcomp n_max (some ClusterGroup.ignored)]
    exact hpart n_max
  · intro n_max gv
    rw [hcomp n_max gv]
    exact (best_clusters_pairwise w.cluster_ids q n_max).filter _

/-- Witness for C4 at a concrete three-cluster state with one good cluster:
the truncation bound, the partition and the full-ranking permutation are all
evaluated. -/
theorem claim_C4_witness :
    0 < 1 ∧ 1 < wThreeMeta.n_clusters ∧
    (wThreeMeta.best_clusters qEx (some 1)).length = 1 ∧
    wThreeMeta.best_clusters qEx none =
      wThreeMeta._in_groups (wThreeMeta.best_clusters qEx none) [none] ++
      wThreeMeta._in_groups (wThreeMeta.best_clusters qEx none)
        [some ClusterGroup.good] ++
      wThreeMeta._in_groups (wThreeMeta.best_clusters qEx none)
        [some ClusterGroup.ignored] :=
  ⟨by decide, by decide,
    (claim_C4_best_clusters wThreeMeta qEx).2.2.1 1 (by decide) (by decide),
    (claim_C4_best_clusters wThreeMeta qEx).2.2.2.1 none⟩

namespace Wizard

theorem setBestValue_frame {w w' : Wizard} {v : Option ClusterId}
    (h : w.setBestValue v = some w') :
    w'.history = w.history ∧ w'.bestList = w.bestList ∧
    w'.matchList = w.matchList ∧ w'.match_ = w.match_ := by
  unfold setBestValue at h
  split at h
  · exact Option.noConfusion h
  · split at h
    · cases h
      exact ⟨rfl, rfl, rfl, rfl⟩
    · exact Option.noConfusion h

theorem setMatchValue_frame {w w' : Wizard} {v : Option ClusterId}
    (h : w.setMatchValue v = some w') :
    w'.history = w.history ∧ w'.bestList = w.bestList ∧
    w'.matchList = w.matchList ∧ w'.best = w.best := by
  unfold setMatchValue at h
  split at h
  · cases h
    exact ⟨rfl, rfl, rfl, rfl⟩
  · split at h
    · cases h
      exact ⟨rfl, rfl, rfl, rfl⟩
    · exact Option.noConfusion h

theorem next_best_history {w w' : Wizard} {q : ClusterId → Int}
    {s : ClusterId → ClusterId → Int} (h : w.next_best q s = some w') :
    w'.history = w.history := by
  unfold next_best at h
  split at h
  · cases h
    rfl
  · split at h
    · exact Option.noConfusion h
    · split at h
      · exact Option.noConfusion h
      · rename_i wA hset
        split at h
        · cases h
          exact (setBestValue_frame hset).1
        · exact ((set_match_list_frame h).2.2.2.1).trans (setBestValue_frame hset).1

theorem previous_best_history {w w' : Wizard} {q : ClusterId → Int}
    {s : ClusterId → ClusterId → Int} (h : w.previous_best q s = some w') :
    w'.history = w.history := by
  unfold previous_best at h
  split at h
  · cases h
    rfl
  · split at h
    · exact Option.noConfusion h
    · split at h
      · exact Option.noConfusion h
      · rename_i wA hset
        split at h
        · cases h
          exact (setBestValue_frame hset).1
        · exact ((set_match_list_frame h).2.2.2.1).trans (setBestValue_frame hset).1

theorem next_match_history {w w' : Wizard} {q : ClusterId → Int}
    {s : ClusterId → ClusterId → Int} (h : w.next_match q s = some w') :
    w'.history = w.history := by
  unfold next_match at h
  split at h
  · exact next_best_history h
  · split at h
    · exact Option.noConfusion h
    · exact (setMatchValue_frame h).1

theorem pin_history {w w' : Wizard} {q : ClusterId → Int}
    {s : ClusterId → ClusterId → Int} {c : Option ClusterId}
    (h : w.pin q s c = some w') : w'.history = w.history := by
  unfold pin at h
  split at h
  · cases h
    rfl
  · split at h
    · cases h
      rfl
    · split at h
      · exact Option.noConfusion h
      · rename_i wA hset
        split at h
        · exact Option.noConfusion h
        · rename_i wB hsm
          split at h
          · cases h
            exact ((set_match_list_frame hsm).2.2.2.1).trans (setBestValue_frame hset).1
          · exact Option.noConfusion h

theorem deleteOne_history (w : Wizard) (clu : ClusterId) :
    (w._deleteOne clu).history = w.history := rfl

theorem delete_history (w : Wizard) (l : List ClusterId) :
    (w._delete l).history = w.history := by
  induction l generalizing w with
  | nil => rfl
  | cons x t ih => exact (ih (w._deleteOne x)).trans (deleteOne_history w x)

theorem addOne_history {w w' : Wizard} {clu : ClusterId} {g : Option ClusterGroup}
    {position : Option Nat} (h : w._addOne clu g position = some w') :
    w'.history = w.history := by
  unfold _addOne at h
  split at h
  · exact Option.noConfusion h
  · cases h
    rfl

theorem update_state_add_history {up : ClusterUpdate} {w w' : Wizard} {clu : ClusterId}
    (h : _update_state_add up w clu = some w') : w'.history = w.history := by
  unfold _update_state_add at h
  split at h
  · exact Option.noConfusion h
  · split at h
    · exact addOne_history h
    · split at h
      · exact Option.noConfusion h
      · exact addOne_history h

theorem update_state_adds_history {up : ClusterUpdate} {l : List ClusterId}
    {w w' : Wizard} (h : l.foldlM (_update_state_add up) w = some w') :
    w'.history = w.history := by
  induction l generalizing w with
  | nil =>
    rw [List.foldlM_nil] at h
    cases h
    rfl
  | cons x t ih =>
    rw [List.foldlM_cons] at h
    rcases hx : _update_state_add up w x with _ | wx
    · rw [hx] at h
      exact Option.noConfusion h
    · rw [hx, Option.bind_eq_bind, Option.some_bind] at h
      exact (ih h).trans (update_state_add_history hx)

theorem update_state_meta_history {w w' : Wizard} {up : ClusterUpdate}
    (h : w._update_state_meta up = some w') : w'.history = w.history := by
  unfold _update_state_meta at h
  split at h
  · split at h
    · exact Option.noConfusion h
    · cases h
      rfl
  · cases h
    rfl

theorem update_state_history {w w' : Wizard} {up : ClusterUpdate}
    (h : w._update_state up = some w') : w'.history = w.history := by
  unfold _update_state at h
  split at h
  · exact Option.noConfusion h
  · rename_i w1 hmeta
    split at h
    · exact Option.noConfusion h
    · rename_i w2 hadds
      cases h
      exact ((delete_history w2 up.deleted).trans
        (update_state_adds_history hadds)).trans (update_state_meta_history hmeta)

theorem update_selection_history {w w' : Wizard} {q : ClusterId → Int}
    {s : ClusterId → ClusterId → Int} {up : ClusterUpdate}
    (hnone : up.history = none)
    (h : w._update_selection q s up = some w') : w'.history = w.history := by
  unfold _update_selection at h
  split at h
  · exact Option.noConfusion h
  · rename_i wsel hsel
    split at h
    · cases h
      have hsel' : w._update_selection_descr q s up = w._update_selection_sel q s up := by
        unfold _update_selection_sel
        rw [hnone]
      rw [← hsel'] at hsel
      unfold _update_selection_descr at hsel
      split at hsel
      · split at hsel
        · exact Option.noConfusion hsel
        · exact pin_history hsel
      · split at hsel
        · exact Option.noConfusion hsel
        · exact pin_history hsel
      · split at hsel
        · exact Option.noConfusion hsel
        · split at hsel
          · exact next_best_history hsel
          · split at hsel
            · exact next_match_history hsel
            · cases hsel
              rfl
      · cases hsel
        rfl
    · exact Option.noConfusion h

end Wizard

namespace Wizard

theorem select_history_best_cases {w w1 : Wizard} {b0 : ClusterId}
    (h : _select_history_best w (some b0) = some w1) :
    (w.bestList.isEmpty = true ∧ w1 = w) ∨
    (b0 ∈ w.bestList ∧ w1 = { w with best := some b0 }) := by
  unfold _select_history_best at h
  by_cases hbl : w.bestList.isEmpty
  · rw [if_neg (by simp [hbl])] at h
    cases h
    exact Or.inl ⟨hbl, rfl⟩
  · rw [if_pos (by simp [hbl])] at h
    change (if b0 ∈ w.bestList then w.setBestValue (some b0) else none) = some w1 at h
    by_cases hmem : b0 ∈ w.bestList
    · rw [if_pos hmem] at h
      change (if b0 ∈ w.bestList then some { w with best := some b0 } else none)
        = some w1 at h
      rw [if_pos hmem] at h
      cases h
      exact Or.inr ⟨hmem, rfl⟩
    · rw [if_neg hmem] at h
      exact Option.noConfusion h

theorem ensure_best_of_mem {w1 w2 : Wizard} (h : _ensure_best w1 = some w2)
    (hmem : ∀ b, w1.best = some b → b ∈ w1.bestList) : w2 = w1 := by
  unfold _ensure_best at h
  split at h
  · rename_i b hb
    rw [if_pos (hmem b hb)] at h
    cases h
    rfl
  · cases h
    rfl

theorem select_history_match_cases {w2 w3 : Wizard} {q : ClusterId → Int}
    {s : ClusterId → ClusterId → Int} {m0 : ClusterId}
    (h : _select_history_match w2 q s (some m0) = some w3) :
    (w2.matchList.isEmpty = true ∧ w3 = w2) ∨
    (∃ wr, w2._set_match_list q s none = some wr ∧ m0 ∈ wr.matchList ∧
      w3 = { wr with match_ := some m0 }) := by
  unfold _select_history_match at h
  by_cases hml : w2.matchList.isEmpty
  · rw [if_neg (by simp [hml])] at h
    cases h
    exact Or.inl ⟨hml, rfl⟩
  · rw [if_pos (by simp [hml])] at h
    split at h
    · exact Option.noConfusion h
    · rename_i wr hwr
      change (if m0 ∈ wr.matchList then wr.setMatchValue (some m0) else none)
        = some w3 at h
      by_cases hmem : m0 ∈ wr.matchList
      · rw [if_pos hmem] at h
        change (if m0 ∈ wr.matchList then some { wr with match_ := some m0 } else none)
          = some w3 at h
        rw [if_pos hmem] at h
        cases h
        exact Or.inr ⟨wr, hwr, hmem, rfl⟩
      · rw [if_neg hmem] at h
        exact Option.noConfusion h

theorem ensure_match_of_mem {w3 w' : Wizard} (h : _ensure_match w3 = some w')
    (hmem : ∀ m, w3.match_ = some m → m ∈ w3.matchList) : w' = w3 := by
  unfold _ensure_match at h
  split at h
  · rename_i m hm
    rw [if_pos (hmem m hm)] at h
    cases h
    rfl
  · cases h
    rfl

theorem ensure_match_empty {w3 w' : Wizard} (h : _ensure_match w3 = some w')
    (hml : w3.matchList = []) : w' = w3 ∧ w3.match_ = none := by
  unfold _ensure_match at h
  split at h
  · rename_i m hm
    rw [hml] at h
    simp at h
  · rename_i hm
    cases h
    exact ⟨rfl, hm⟩

theorem select_history_restore {w w' : Wizard} {q : ClusterId → Int}
    {s : ClusterId → ClusterId → Int} {b0 m0 : ClusterId}
    (hcur : w.history.current_item = some (some b0, some m0))
    (hs2 : ∀ b, w.best = some b → b ∈ w.bestList)
    (h : w._select_history q s = some w') :
    (w'.best.isSome = true → w'.best = some b0) ∧
    (w'.match_.isSome = true → w'.match_ = some m0) := by
  unfold _select_history at h
  rw [hcur] at h
  change (match _select_history_best w (some b0) with
          | none => none
          | some w1 =>
            match _ensure_best w1 with
            | none => none
            | some w2 =>
              match _select_history_match w2 q s (some m0) with
              | none => none
              | some w3 => _ensure_match w3) = some w' at h
  split at h
  · exact Option.noConfusion h
  · rename_i w1 h1
    split at h
    · exact Option.noConfusion h
    · rename_i w2 h2
      split at h
      · exact Option.noConfusion h
      · rename_i w3 h3
        rcases select_history_best_cases h1 with ⟨hbl, hw1⟩ | ⟨hmem, hw1⟩
        · rw [hw1] at h2
          have hbest_none : w.best = none := by
            rcases hb : w.best with _ | b
            · rfl
            · have := hs2 b hb
              rw [List.isEmpty_iff.mp hbl] at this
              exact absurd this (List.not_mem_nil b)
          have hw2 : w2 = w := ensure_best_of_mem h2 hs2
          rw [hw2] at h3
          rcases select_history_match_cases h3 with ⟨hml, hw3⟩ | ⟨wr, hwr, hmm, hw3⟩
          · rw [hw3] at h
            obtain ⟨hw', hm3⟩ := ensure_match_empty h (List.isEmpty_iff.mp hml)
            constructor
            · intro hso
              rw [hw', hbest_none] at hso
              exact absurd hso (by simp)
            · intro hso
              rw [hw', hm3] at hso
              exact absurd hso (by simp)
          · rw [hw3] at h
            have hw' : w' = { wr with match_ := some m0 } := by
              refine ensure_match_of_mem h ?_
              intro m hm
              injection hm with hm
              subst hm
              exact hmm
            obtain ⟨-, hbr, -, -, -⟩ := set_match_list_frame hwr
            constructor
            · intro hso
              rw [hw'] at hso
              change wr.best.isSome = true at hso
              rw [hbr, hbest_none] at hso
              exact absurd hso (by simp)
            · intro _
              rw [hw']
        · rw [hw1] at h2
          have hs2' : ∀ b, ({ w with best := some b0 } : Wizard).best = some b →
              b ∈ ({ w with best := some b0 } : Wizard).bestList := by
            intro b hb
            injection hb with hb
            subst hb
            exact hmem
          have hw2 : w2 = { w with best := some b0 } := ensure_best_of_mem h2 hs2'
          rw [hw2] at h3
          rcases select_history_match_cases h3 with ⟨hml, hw3⟩ | ⟨wr, hwr, hmm, hw3⟩
          · rw [hw3] at h
            obtain ⟨hw', hm3⟩ := ensure_match_empty h (List.isEmpty_iff.mp hml)
            constructor
            · intro _
              rw [hw']
            · intro hso
              rw [hw', hm3] at hso
              exact absurd hso (by simp)
          · rw [hw3] at h
            have hw' : w' = { wr with match_ := some m0 } := by
              refine ensure_match_of_mem h ?_
              intro m hm
              injection hm with hm
              subst hm
              exact hmm
            obtain ⟨-, hbr, -, -, -⟩ := set_match_list_frame hwr
            change wr.best = some b0 at hbr
            constructor
            · intro _
              rw [hw']
              show wr.best = some b0
              exact hbr
            · intro _
              rw [hw']

theorem headOpt_mem {l : List ClusterId} {a : ClusterId} (h : l.head? = some a) : a ∈ l := by
  cases l with
  | nil => exact Option.noConfusion h
  | cons x xs =>
    injection h with h
    subst h
    exact List.mem_cons_self x xs

theorem mem_pyInsert {α : Type _} {a : α} {l : List α} (i : Nat) (x : α) (ha : a ∈ l) :
    a ∈ pyInsert l i x := by
  unfold pyInsert
  rw [← List.take_append_drop i l] at ha
  rcases List.mem_append.mp ha with h | h
  · exact List.mem_append_left _ h
  · exact List.mem_append_right _ (List.mem_cons_of_mem _ h)

theorem addOne_bestMem {w w' : Wizard} {clu : ClusterId} {g : Option ClusterGroup}
    {pos : Option Nat} (h : w._addOne clu g pos = some w')
    (hs2 : ∀ b, w.best = some b → b ∈ w.bestList) :
    ∀ b, w'.best = some b → b ∈ w'.bestList := by
  unfold _addOne at h
  split at h
  · exact Option.noConfusion h
  · cases h
    intro b hb
    change w.best = some b at hb
    show b ∈ (match w.best, pos with
      | none, _ => w.bestList
      | some _, none => w.bestList ++ [clu]
      | some _, some p => pyInsert w.bestList p clu)
    rw [hb]
    cases pos with
    | none => exact List.mem_append_left _ (hs2 b hb)
    | some p => exact mem_pyInsert p clu (hs2 b hb)

theorem update_state_add_bestMem {up : ClusterUpdate} {w w' : Wizard} {clu : ClusterId}
    (h : _update_state_add up w clu = some w')
    (hs2 : ∀ b, w.best = some b → b ∈ w.bestList) :
    ∀ b, w'.best = some b → b ∈ w'.bestList := by
  unfold _update_state_add at h
  split at h
  · exact Option.noConfusion h
  · split at h
    · exact addOne_bestMem h hs2
    · split at h
      · exact Option.noConfusion h
      · exact addOne_bestMem h hs2

theorem update_state_adds_bestMem {up : ClusterUpdate} {l : List ClusterId}
    {w w' : Wizard} (h : l.foldlM (_update_state_add up) w = some w')
    (hs2 : ∀ b, w.best = some b → b ∈ w.bestList) :
    ∀ b, w'.best = some b → b ∈ w'.bestList := by
  induction l generalizing w with
  | nil =>
    rw [List.foldlM_nil] at h
    cases h
    exact hs2
  | cons x xs ih =>
    rw [List.foldlM_cons] at h
    rcases hx : _update_state_add up w x with _ | wx
    · rw [hx] at h
      exact Option.noConfusion h
    · rw [hx, Option.bind_eq_bind, Option.some_bind] at h
      exact ih h (update_state_add_bestMem hx hs2)

theorem deleteOne_bestMem (w : Wizard) (clu : ClusterId)
    (hs2 : ∀ b, w.best = some b → b ∈ w.bestList) :
    ∀ b, (w._deleteOne clu).best = some b → b ∈ (w._deleteOne clu).bestList := by
  intro b hb
  change (if w.best = some clu then (w.bestList.erase clu).head? else w.best) = some b at hb
  show b ∈ w.bestList.erase clu
  by_cases hc : w.best = some clu
  · rw [if_pos hc] at hb
    exact headOpt_mem hb
  · rw [if_neg hc] at hb
    have hne : b ≠ clu := by
      intro hbc
      exact hc (hbc ▸ hb)
    exact (List.mem_erase_of_ne hne).mpr (hs2 b hb)

theorem delete_bestMem (l : List ClusterId) (w : Wizard)
    (hs2 : ∀ b, w.best = some b → b ∈ w.bestList) :
    ∀ b, (w._delete l).best = some b → b ∈ (w._delete l).bestList := by
  induction l generalizing w with
  | nil => exact hs2
  | cons x xs ih =>
    show ∀ b, ((w._deleteOne x)._delete xs).best = some b →
      b ∈ ((w._deleteOne x)._delete xs).bestList
    exact ih (w._deleteOne x) (deleteOne_bestMem w x hs2)

theorem update_state_meta_bestMem {w w' : Wizard} {up : ClusterUpdate}
    (h : w._update_state_meta up = some w')
    (hs2 : ∀ b, w.best = some b → b ∈ w.bestList) :
    ∀ b, w'.best = some b → b ∈ w'.bestList := by
  unfold _update_state_meta at h
  split at h
  · split at h
    · exact Option.noConfusion h
    · cases h
      exact hs2
  · cases h
    exact hs2

theorem update_state_bestMem {w w' : Wizard} {up : ClusterUpdate}
    (h : w._update_state up = some w')
    (hs2 : ∀ b, w.best = some b → b ∈ w.bestList) :
    ∀ b, w'.best = some b → b ∈ w'.bestList := by
  unfold _update_state at h
  split at h
  · exact Option.noConfusion h
  · rename_i w1 hmeta
    split at h
    · exact Option.noConfusion h
    · rename_i w2 hadds
      cases h
      exact delete_bestMem up.deleted w2
        (update_state_adds_bestMem hadds (update_state_meta_bestMem hmeta hs2))

end Wizard

namespace History

theorem add_add_is_last (h0 : History) (p x : Option ClusterId × Option ClusterId) :
    ((h0.add p).add x).is_last = true := by
  unfold add is_last
  simp

theorem add_add_undo_current (h0 : History) (p x : Option ClusterId × Option ClusterId) :
    ((h0.add p).add x).undo.current_item = some p := by
  show ((h0.items ++ [p]) ++ [x])[(h0.items ++ [p]).length - 1]? = some p
  have hlen : (h0.items ++ [p]).length - 1 = h0.items.length := by simp
  rw [hlen, List.getElem?_append, if_pos (by simp)]
  exact List.getElem?_concat_length h0.items p

end History

namespace Wizard

theorem on_cluster_hist_shape {w w1 : Wizard} {q : ClusterId → Int}
    {s : ClusterId → ClusterId → Int} {e : ClusterUpdate}
    (hfin : w._has_finished = false)
    (hbl : w.bestList.isEmpty = false) (hml : w.matchList.isEmpty = false)
    (he : e.history = none)
    (h : w.on_cluster q s e = some w1) :
    ∃ x, w1.history = (w.history.add (w.best, w.match_)).add x := by
  unfold on_cluster at h
  rw [hfin, hbl, hml, he] at h
  simp only [Bool.false_eq_true, if_false, Bool.or_self, Option.isNone_none, if_true] at h
  split at h
  · exact Option.noConfusion h
  · rename_i wu hup
    split at h
    · exact Option.noConfusion h
    · rename_i w2 hsel
      cases h
      refine ⟨(w2.best, w2.match_), ?_⟩
      show w2.history.add (w2.best, w2.match_) = _
      rw [update_selection_history he hsel, update_state_history hup]

theorem on_cluster_undo_restore {w w2 : Wizard} {q : ClusterId → Int}
    {s : ClusterId → ClusterId → Int} {e : ClusterUpdate} {b0 m0 : ClusterId}
    (hfin : w._has_finished = false)
    (hbl : w.bestList.isEmpty = false) (hml : w.matchList.isEmpty = false)
    (he : e.history = some HistoryTag.undo)
    (hlast : w.history.is_last = true)
    (hcur : w.history.undo.current_item = some (some b0, some m0))
    (hs2 : ∀ b, w.best = some b → b ∈ w.bestList)
    (h : w.on_cluster q s e = some w2) :
    (w2.best.isSome = true → w2.best = some b0) ∧
    (w2.match_.isSome = true → w2.match_ = some m0) := by
  unfold on_cluster at h
  rw [hfin, hbl, hml, he] at h
  simp only [Bool.false_eq_true, if_false, Bool.or_self, Option.isNone_some] at h
  split at h
  · exact Option.noConfusion h
  · rename_i wu hup
    split at h
    · exact Option.noConfusion h
    · rename_i w2' hsel
      cases h
      unfold _update_selection at hsel
      split at hsel
      · exact Option.noConfusion hsel
      · rename_i wsel hselsel
        split at hsel
        · have hw : wsel = w2 := Option.some.inj hsel
          rw [← hw]
          unfold _update_selection_sel at hselsel
          rw [he] at hselsel
          change _select_history
            { wu with history :=
              (if !wu.history.is_last then wu.history.undo else wu.history).undo }
            q s = some wsel at hselsel
          rw [update_state_history hup, hlast] at hselsel
          simp only [Bool.not_true, Bool.false_eq_true, if_false] at hselsel
          refine select_history_restore ?_ ?_ hselsel
          · exact hcur
          · intro b hb
            exact update_state_bestMem hup hs2 b hb
        · exact Option.noConfusion hsel

end Wizard

/-- C2: counterexample to the unconditional round-trip. From `wTwo`
(non-empty best and match lists, selection `(2, 1)`), the merge event
`evMerge` (history unset) followed by the undo-tagged event `evMergeUndo`
ends with selection `(3, none)`, not the pre-event pair `(2, 1)`: the merge
leaves a single-element best list, the wizard counts as finished, and
`on_cluster` then ignores the undo event entirely. -/
theorem claim_C2_counterexample :
    wTwo.bestList ≠ [] ∧ wTwo.matchList ≠ [] ∧
    wTwo.best = some 2 ∧ wTwo.match_ = some 1 ∧
    evMerge.history = none ∧ evMerge.description = some UpDescription.merge ∧
    evMergeUndo.history = some HistoryTag.undo ∧
    wTwo.on_cluster qEx sEx evMerge = some wTwoMerged ∧
    wTwoMerged.on_cluster qEx sEx evMergeUndo = some wTwoMerged ∧
    ¬(wTwoMerged.best = some 2 ∧ wTwoMerged.match_ = some 1) := by
  decide

/-- C2 (corrected): conditional undo round-trip. If the wizard starts with a
defined selection `(b0, m0)`, non-empty best and match lists, and has not
finished, processes a mutation event with history unset, and the resulting
state has again not finished, has non-empty best and match lists, and its
best is a member of its best list, then processing an undo-tagged event
yields a state whose best — whenever defined — equals `b0` and whose match —
whenever defined — equals `m0`. -/
theorem claim_C2_undo_round_trip (w0 w1 w2 : Wizard) (q : ClusterId → Int)
    (s : ClusterId → ClusterId → Int) (e e' : ClusterUpdate) (b0 m0 : ClusterId)
    (hbl0 : w0.bestList.isEmpty = false) (hml0 : w0.matchList.isEmpty = false)
    (hb0 : w0.best = some b0) (hm0 : w0.match_ = some m0)
    (hfin0 : w0._has_finished = false)
    (he : e.history = none)
    (h1 : w0.on_cluster q s e = some w1)
    (hfin1 : w1._has_finished = false)
    (hbl1 : w1.bestList.isEmpty = false) (hml1 : w1.matchList.isEmpty = false)
    (hs2 : w1.best.all (fun b => decide (b ∈ w1.bestList)) = true)
    (he' : e'.history = some HistoryTag.undo)
    (h2 : w1.on_cluster q s e' = some w2) :
    (w2.best.isSome = true → w2.best = some b0) ∧
    (w2.match_.isSome = true → w2.match_ = some m0) := by
  have hs2' : ∀ b, w1.best = some b → b ∈ w1.bestList := by
    intro b hb
    rw [hb, Option.all_some] at hs2
    exact of_decide_eq_true hs2
  obtain ⟨x, hh⟩ := Wizard.on_cluster_hist_shape hfin0 hbl0 hml0 he h1
  rw [hb0, hm0] at hh
  refine Wizard.on_cluster_undo_restore hfin1 hbl1 hml1 he' ?_ ?_ hs2' h2
  · rw [hh]
    exact History.add_add_is_last _ _ _
  · rw [hh]
    exact History.add_add_undo_current _ _ _

/-- C2 witness: the metadata event `evMeta` on `wThree` followed by
`evMetaUndo` satisfies every hypothesis, and the final selection `(3, 2)`
matches the pre-event pair. -/
theorem claim_C2_witness :
    wThree.on_cluster qEx sEx evMeta = some wThreeMeta ∧
    wThreeMeta.on_cluster qEx sEx evMetaUndo = some wThreeMetaUndo ∧
    ((wThreeMetaUndo.best.isSome = true → wThreeMetaUndo.best = some 3) ∧
     (wThreeMetaUndo.match_.isSome = true → wThreeMetaUndo.match_ = some 2)) :=
  ⟨by decide, by decide,
    claim_C2_undo_round_trip wThree wThreeMeta wThreeMetaUndo qEx sEx evMeta
      evMetaUndo 3 2 (by decide) (by decide) (by decide) (by decide) (by decide)
      (by decide) (by decide) (by decide) (by decide) (by decide) (by decide)
      (by decide) (by decide)⟩

namespace Wizard

theorem mem_keysList_of_mem_cluster_ids {w : Wizard} {c : ClusterId}
    (h : c ∈ w.cluster_ids) : c ∈ w.keysList :=
  (List.perm_insertionSort _ w.keysList).mem_iff.mp h

theorem mem_of_mem_in_groups {w : Wizard} {items : List ClusterId}
    {g : List (Option ClusterGroup)} {c : ClusterId}
    (h : c ∈ w._in_groups items g) : c ∈ items :=
  List.mem_of_mem_filter h

theorem mem_of_mem_sort {w : Wizard} {l : List ClusterId} {mix : Bool} {c : ClusterId}
    (h : c ∈ w._sort l mix) : c ∈ l := by
  unfold _sort at h
  split at h
  · rcases List.mem_append.mp h with h | h
    · exact mem_of_mem_in_groups h
    · exact mem_of_mem_in_groups h
  · rcases List.mem_append.mp h with h | h
    · rcases List.mem_append.mp h with h | h
      · exact mem_of_mem_in_groups h
      · exact mem_of_mem_in_groups h
    · exact mem_of_mem_in_groups h

theorem mem_of_mem_argsort {seq : List (ClusterId × Int)} {nm : Option Nat} {c : ClusterId}
    (h : c ∈ _argsort seq nm) : c ∈ seq.map Prod.fst := by
  have base : ∀ x ∈ (seq.insertionSort (fun a b => b.2 ≤ a.2)).map Prod.fst,
      x ∈ seq.map Prod.fst := by
    intro x hx
    exact ((List.perm_insertionSort _ seq).map Prod.fst).mem_iff.mp hx
  unfold _argsort at h
  rcases nm with _ | k
  · exact base c h
  · rcases k with _ | k
    · exact base c h
    · exact base c (List.mem_of_mem_take h)

theorem mem_keysList_of_mem_best_clusters {w : Wizard} {q : ClusterId → Int}
    {nm : Option Nat} {c : ClusterId} (h : c ∈ w.best_clusters q nm) :
    c ∈ w.keysList := by
  have h1 : c ∈ _best_clusters w.cluster_ids q nm := mem_of_mem_sort h
  have h2 := mem_of_mem_argsort h1
  rw [List.map_map] at h2
  have hid : w.cluster_ids.map (Prod.fst ∘ fun cluster => (cluster, q cluster)) =
      w.cluster_ids := List.map_id'' (fun x => rfl) _
  rw [hid] at h2
  exact mem_keysList_of_mem_cluster_ids h2

theorem mem_keysList_of_most_similar {w : Wizard} {q : ClusterId → Int}
    {s : ClusterId → ClusterId → Int} {cl : Option ClusterId} {nm : Option Nat}
    {L : List ClusterId} {c : ClusterId}
    (h : w.most_similar_clusters q s cl nm = some L) (hc : c ∈ L) :
    c ∈ w.keysList := by
  unfold most_similar_clusters at h
  split at h
  · exact Option.noConfusion h
  · rename_i c0 heq
    have hL := Option.some.inj h
    rw [← hL] at hc
    have h1 := mem_of_mem_sort hc
    have h2 := mem_of_mem_argsort h1
    rw [List.map_map] at h2
    have hid : (w.cluster_ids.filter (fun other => other ≠ c0)).map
        (Prod.fst ∘ fun other => (other, s c0 other)) =
        w.cluster_ids.filter (fun other => other ≠ c0) :=
      List.map_id'' (fun x => rfl) _
    rw [hid] at h2
    exact mem_keysList_of_mem_cluster_ids (List.mem_of_mem_filter h2)

theorem inv1_iff (w : Wizard) : w.inv1b = true ↔
    ((∀ c ∈ w.bestList, c ∈ w.keysList) ∧ (∀ c ∈ w.matchList, c ∈ w.keysList)) := by
  simp [inv1b]

theorem bestMem_iff (w : Wizard) : w.bestMem = true ↔
    (∀ b, w.best = some b → b ∈ w.bestList) := by
  cases hb : w.best <;> simp [bestMem, hb]

theorem matchMem_iff (w : Wizard) : w.matchMem = true ↔
    (∀ m, w.match_ = some m → m ∈ w.matchList) := by
  cases hm : w.match_ <;> simp [matchMem, hm]

theorem inv2_of_bestMem {w : Wizard} (h : w.bestMem = true) : w.inv2b = true := by
  unfold inv2b
  rw [h, Bool.or_true]

theorem inv3_of_matchMem {w : Wizard} (h : w.matchMem = true) : w.inv3b = true := by
  unfold inv3b
  rw [h, Bool.or_true]

theorem inv4_of_best_none {w : Wizard} (h : w.best = none) : w.inv4b = true := by
  unfold inv4b
  rw [h]

theorem checkB_elim {w : Wizard} (h : w.checkB = true) :
    w.inv1b = true ∧ w.inv2b = true ∧ w.inv3b = true ∧ w.inv4b = true := by
  unfold checkB at h
  simp only [Bool.and_eq_true] at h
  exact ⟨h.1.1.1, h.1.1.2, h.1.2, h.2⟩

theorem setBestValue_cases {w w' : Wizard} {v : Option ClusterId}
    (h : w.setBestValue v = some w') :
    ∃ b, b ∈ w.bestList ∧ w' = { w with best := some b } := by
  unfold setBestValue at h
  split at h
  · exact Option.noConfusion h
  · rename_i b
    split at h
    · rename_i hmem
      exact ⟨b, hmem, (Option.some.inj h).symm⟩
    · exact Option.noConfusion h

theorem setMatchValue_cases {w w' : Wizard} {v : Option ClusterId}
    (h : w.setMatchValue v = some w') :
    w' = { w with match_ := none } ∨
    ∃ m, m ∈ w.matchList ∧ w' = { w with match_ := some m } := by
  unfold setMatchValue at h
  split at h
  · exact Or.inl (Option.some.inj h).symm
  · rename_i m
    split at h
    · rename_i hmem
      exact Or.inr ⟨m, hmem, (Option.some.inj h).symm⟩
    · exact Option.noConfusion h

theorem set_match_list_post {w w' : Wizard} {q : ClusterId → Int}
    {s : ClusterId → ClusterId → Int} {cl : Option ClusterId}
    (h : w._set_match_list q s cl = some w') :
    w'.inv3b = true ∧ ∀ c ∈ w'.matchList, c ∈ w.keysList := by
  unfold _set_match_list at h
  split at h
  · exact Option.noConfusion h
  · cases h
    constructor
    · rfl
    · intro c hc
      exact absurd hc (List.not_mem_nil c)
  · rename_i c0 rest hmsc
    cases h
    constructor
    · refine inv3_of_matchMem ?_
      rw [matchMem_iff]
      intro m hm
      have hm' : c0 = m := Option.some.inj hm
      subst hm'
      exact List.mem_cons_self _ _
    · intro c hc
      exact mem_keysList_of_most_similar hmsc hc

theorem pyInsert_perm {α : Type _} (l : List α) (i : Nat) (a : α) :
    (pyInsert l i a).Perm (a :: l) := by
  unfold pyInsert
  have h : List.Perm (l.take i ++ a :: l.drop i) (a :: (l.take i ++ l.drop i)) :=
    List.perm_middle
  rw [List.take_append_drop] at h
  exact h

end Wizard

namespace Wizard

theorem dictSet_keys (d : List (ClusterId × Option ClusterGroup)) (k : ClusterId)
    (v : Option ClusterGroup) :
    (dictSet d k v).map Prod.fst = d.map Prod.fst ∨
    (dictSet d k v).map Prod.fst = d.map Prod.fst ++ [k] := by
  unfold dictSet
  split
  · left
    rw [List.map_map]
    refine List.map_congr_left ?_
    intro p hp
    by_cases hpk : p.1 = k
    · simp [hpk]
    · simp [hpk]
  · right
    rw [List.map_append]
    rfl

theorem update_state_meta_listsWF {w w' : Wizard} {up : ClusterUpdate}
    (h : w._update_state_meta up = some w') (hw : listsWF w) : listsWF w' := by
  unfold _update_state_meta at h
  split at h
  · split at h
    · exact Option.noConfusion h
    · rename_i cluster hcl
      have hw' := (Option.some.inj h).symm
      subst hw'
      obtain ⟨hn1, hn2, hs1, hs2⟩ := hw
      refine ⟨hn1, hn2, ?_, ?_⟩
      · intro c hc
        show c ∈ (dictSet w.clusterGroups cluster up.metadata_value).map Prod.fst
        rcases dictSet_keys w.clusterGroups cluster up.metadata_value with hk | hk
        · rw [hk]
          exact hs1 c hc
        · rw [hk]
          exact List.mem_append_left _ (hs1 c hc)
      · intro c hc
        show c ∈ (dictSet w.clusterGroups cluster up.metadata_value).map Prod.fst
        rcases dictSet_keys w.clusterGroups cluster up.metadata_value with hk | hk
        · rw [hk]
          exact hs2 c hc
        · rw [hk]
          exact List.mem_append_left _ (hs2 c hc)
  · have hw' := (Option.some.inj h).symm
    subst hw'
    exact hw

theorem addOne_listsWF {w w' : Wizard} {clu : ClusterId} {g : Option ClusterGroup}
    {pos : Option Nat} (h : w._addOne clu g pos = some w') (hw : listsWF w) :
    listsWF w' := by
  obtain ⟨hn1, hn2, hs1, hs2⟩ := hw
  have hguard : ¬((w.clusterGroups.any (fun p => p.1 = clu) || clu ∈ w.bestList ||
      clu ∈ w.matchList) = true) := by
    intro hg
    unfold _addOne at h
    rw [if_pos hg] at h
    exact Option.noConfusion h
  simp only [Bool.or_eq_true, decide_eq_true_eq, not_or] at hguard
  obtain ⟨⟨hf1, hf2⟩, hf3⟩ := hguard
  have hf1' : w.clusterGroups.any (fun p => p.1 = clu) = false :=
    Bool.not_eq_true _ ▸ Bool.eq_false_iff.mpr hf1
  rw [addOne_eq w clu g pos hf1' hf2 hf3] at h
  have hw' := (Option.some.inj h).symm
  subst hw'
  have hkey : ∀ c, c ∈ w.keysList → c ∈ (w.clusterGroups ++ [(clu, g)]).map Prod.fst := by
    intro c hc
    rw [List.map_append]
    exact List.mem_append_left _ hc
  have hclukey : clu ∈ (w.clusterGroups ++ [(clu, g)]).map Prod.fst := by
    rw [List.map_append]
    exact List.mem_append_right _ (List.mem_singleton.mpr rfl)
  refine ⟨?_, ?_, ?_, ?_⟩
  · show (match w.best, pos with
      | none, _ => w.bestList
      | some _, none => w.bestList ++ [clu]
      | some _, some p => pyInsert w.bestList p clu).Nodup
    rcases w.best with _ | b
    · exact hn1
    · rcases pos with _ | p
      · simp [List.nodup_append, hn1, hf2]
      · exact (pyInsert_perm w.bestList p clu).nodup_iff.mpr (List.nodup_cons.mpr ⟨hf2, hn1⟩)
  · show (match w.match_ with
      | none => w.matchList
      | some _ => w.matchList ++ [clu]).Nodup
    rcases w.match_ with _ | m
    · exact hn2
    · simp [List.nodup_append, hn2, hf3]
  · show ∀ c, c ∈ (match w.best, pos with
      | none, _ => w.bestList
      | some _, none => w.bestList ++ [clu]
      | some _, some p => pyInsert w.bestList p clu) →
      c ∈ (w.clusterGroups ++ [(clu, g)]).map Prod.fst
    intro c hc
    rcases hbb : w.best with _ | b
    · rw [hbb] at hc
      exact hkey c (hs1 c hc)
    · rw [hbb] at hc
      rcases pos with _ | p
      · have hc' : c ∈ w.bestList ++ [clu] := hc
        rcases List.mem_append.mp hc' with hcl | hcl
        · exact hkey c (hs1 c hcl)
        · rw [List.mem_singleton.mp hcl]
          exact hclukey
      · have hc' : c ∈ pyInsert w.bestList p clu := hc
        rcases List.mem_cons.mp ((pyInsert_perm w.bestList p clu).mem_iff.mp hc') with hcl | hcl
        · rw [hcl]
          exact hclukey
        · exact hkey c (hs1 c hcl)
  · show ∀ c, c ∈ (match w.match_ with
      | none => w.matchList
      | some _ => w.matchList ++ [clu]) →
      c ∈ (w.clusterGroups ++ [(clu, g)]).map Prod.fst
    intro c hc
    rcases hmm : w.match_ with _ | m
    · rw [hmm] at hc
      exact hkey c (hs2 c hc)
    · rw [hmm] at hc
      have hc' : c ∈ w.matchList ++ [clu] := hc
      rcases List.mem_append.mp hc' with hcl | hcl
      · exact hkey c (hs2 c hcl)
      · rw [List.mem_singleton.mp hcl]
        exact hclukey

theorem update_state_add_listsWF {up : ClusterUpdate} {w w' : Wizard} {clu : ClusterId}
    (h : _update_state_add up w clu = some w') (hw : listsWF w) : listsWF w' := by
  unfold _update_state_add at h
  split at h
  · exact Option.noConfusion h
  · split at h
    · exact addOne_listsWF h hw
    · split at h
      · exact Option.noConfusion h
      · exact addOne_listsWF h hw

theorem update_state_adds_listsWF {up : ClusterUpdate} {l : List ClusterId}
    {w w' : Wizard} (h : l.foldlM (_update_state_add up) w = some w')
    (hw : listsWF w) : listsWF w' := by
  induction l generalizing w with
  | nil =>
    rw [List.foldlM_nil] at h
    cases h
    exact hw
  | cons x xs ih =>
    rw [List.foldlM_cons] at h
    rcases hx : _update_state_add up w x with _ | wx
    · rw [hx] at h
      exact Option.noConfusion h
    · rw [hx, Option.bind_eq_bind, Option.some_bind] at h
      exact ih h (update_state_add_listsWF hx hw)

theorem deleteOne_listsWF (w : Wizard) (clu : ClusterId) (hw : listsWF w) :
    listsWF (w._deleteOne clu) := by
  obtain ⟨hn1, hn2, hs1, hs2⟩ := hw
  refine ⟨?_, ?_, ?_, ?_⟩
  · exact hn1.erase clu
  · exact hn2.erase clu
  · intro c hc
    show c ∈ (w.clusterGroups.eraseP (fun p => p.1 = clu)).map Prod.fst
    have hcc : c ≠ clu ∧ c ∈ w.bestList := (hn1.mem_erase_iff).mp hc
    rcases List.mem_map.mp (hs1 c hcc.2) with ⟨p, hp, hpc⟩
    refine List.mem_map.mpr ⟨p, ?_, hpc⟩
    refine (List.mem_eraseP_of_neg ?_).mpr hp
    simp only [decide_eq_true_eq]
    rw [hpc]
    exact hcc.1
  · intro c hc
    show c ∈ (w.clusterGroups.eraseP (fun p => p.1 = clu)).map Prod.fst
    have hcc : c ≠ clu ∧ c ∈ w.matchList := (hn2.mem_erase_iff).mp hc
    rcases List.mem_map.mp (hs2 c hcc.2) with ⟨p, hp, hpc⟩
    refine List.mem_map.mpr ⟨p, ?_, hpc⟩
    refine (List.mem_eraseP_of_neg ?_).mpr hp
    simp only [decide_eq_true_eq]
    rw [hpc]
    exact hcc.1

theorem delete_listsWF (l : List ClusterId) (w : Wizard) (hw : listsWF w) :
    listsWF (w._delete l) := by
  induction l generalizing w with
  | nil => exact hw
  | cons x xs ih =>
    show listsWF ((w._deleteOne x)._delete xs)
    exact ih (w._deleteOne x) (deleteOne_listsWF w x hw)

theorem update_state_listsWF {w w' : Wizard} {up : ClusterUpdate}
    (h : w._update_state up = some w') (hw : listsWF w) : listsWF w' := by
  unfold _update_state at h
  split at h
  · exact Option.noConfusion h
  · rename_i w1 hmeta
    split at h
    · exact Option.noConfusion h
    · rename_i w2 hadds
      have hw' := (Option.some.inj h).symm
      subst hw'
      exact delete_listsWF up.deleted w2
        (update_state_adds_listsWF hadds (update_state_meta_listsWF hmeta hw))

theorem addOne_matchMem {w w' : Wizard} {clu : ClusterId} {g : Option ClusterGroup}
    {pos : Option Nat} (h : w._addOne clu g pos = some w')
    (hs : ∀ m, w.match_ = some m → m ∈ w.matchList) :
    ∀ m, w'.match_ = some m → m ∈ w'.matchList := by
  unfold _addOne at h
  split at h
  · exact Option.noConfusion h
  · have hw' := (Option.some.inj h).symm
    subst hw'
    intro m hm
    have hm' : w.match_ = some m := hm
    show m ∈ (match w.match_ with
      | none => w.matchList
      | some _ => w.matchList ++ [clu])
    rw [hm']
    show m ∈ w.matchList ++ [clu]
    exact List.mem_append_left _ (hs m hm')

theorem update_state_add_matchMem {up : ClusterUpdate} {w w' : Wizard} {clu : ClusterId}
    (h : _update_state_add up w clu = some w')
    (hs : ∀ m, w.match_ = some m → m ∈ w.matchList) :
    ∀ m, w'.match_ = some m → m ∈ w'.matchList := by
  unfold _update_state_add at h
  split at h
  · exact Option.noConfusion h
  · split at h
    · exact addOne_matchMem h hs
    · split at h
      · exact Option.noConfusion h
      · exact addOne_matchMem h hs

theorem update_state_adds_matchMem {up : ClusterUpdate} {l : List ClusterId}
    {w w' : Wizard} (h : l.foldlM (_update_state_add up) w = some w')
    (hs : ∀ m, w.match_ = some m → m ∈ w.matchList) :
    ∀ m, w'.match_ = some m → m ∈ w'.matchList := by
  induction l generalizing w with
  | nil =>
    rw [List.foldlM_nil] at h
    cases h
    exact hs
  | cons x xs ih =>
    rw [List.foldlM_cons] at h
    rcases hx : _update_state_add up w x with _ | wx
    · rw [hx] at h
      exact Option.noConfusion h
    · rw [hx, Option.bind_eq_bind, Option.some_bind] at h
      exact ih h (update_state_add_matchMem hx hs)

theorem deleteOne_matchMem (w : Wizard) (clu : ClusterId)
    (hs : ∀ m, w.match_ = some m → m ∈ w.matchList) :
    ∀ m, (w._deleteOne clu).match_ = some m → m ∈ (w._deleteOne clu).matchList := by
  intro m hm
  have hm2 : (if w.match_ = some clu then none else w.match_) = some m := hm
  show m ∈ w.matchList.erase clu
  by_cases hc : w.match_ = some clu
  · rw [if_pos hc] at hm2
    exact Option.noConfusion hm2
  · rw [if_neg hc] at hm2
    have hmx : m ≠ clu := by
      intro hmx
      exact hc (hmx ▸ hm2)
    exact (List.mem_erase_of_ne hmx).mpr (hs m hm2)

theorem delete_matchMem (l : List ClusterId) (w : Wizard)
    (hs : ∀ m, w.match_ = some m → m ∈ w.matchList) :
    ∀ m, (w._delete l).match_ = some m → m ∈ (w._delete l).matchList := by
  induction l generalizing w with
  | nil => exact hs
  | cons x xs ih =>
    show ∀ m, ((w._deleteOne x)._delete xs).match_ = some m →
      m ∈ ((w._deleteOne x)._delete xs).matchList
    exact ih (w._deleteOne x) (deleteOne_matchMem w x hs)

theorem update_state_meta_matchMem {w w' : Wizard} {up : ClusterUpdate}
    (h : w._update_state_meta up = some w')
    (hs : ∀ m, w.match_ = some m → m ∈ w.matchList) :
    ∀ m, w'.match_ = some m → m ∈ w'.matchList := by
  unfold _update_state_meta at h
  split at h
  · split at h
    · exact Option.noConfusion h
    · have := (Option.some.inj h).symm
      subst this
      exact hs
  · have := (Option.some.inj h).symm
    subst this
    exact hs

theorem update_state_matchMem {w w' : Wizard} {up : ClusterUpdate}
    (h : w._update_state up = some w')
    (hs : ∀ m, w.match_ = some m → m ∈ w.matchList) :
    ∀ m, w'.match_ = some m → m ∈ w'.matchList := by
  unfold _update_state at h
  split at h
  · exact Option.noConfusion h
  · rename_i w1 hmeta
    split at h
    · exact Option.noConfusion h
    · rename_i w2 hadds
      have hw' := (Option.some.inj h).symm
      subst hw'
      exact delete_matchMem up.deleted w2
        (update_state_adds_matchMem hadds (update_state_meta_matchMem hmeta hs))

end Wizard


namespace Wizard

theorem start_post (w : Wizard) (q : ClusterId → Int)
    (h1 : w.inv1b = true) (h3 : w.inv3b = true) :
    (w.start q).inv1b = true ∧ (w.start q).inv2b = true ∧ (w.start q).inv3b = true := by
  obtain ⟨hS1, hS2⟩ := (inv1_iff w).mp h1
  rcases heq : w.best_clusters q none with _ | ⟨c, rest⟩
  · have hw : w.start q = { w with bestList := [] } := by
      unfold start
      rw [heq]
    rw [hw]
    refine ⟨?_, ?_, ?_⟩
    · rw [inv1_iff]
      exact ⟨fun x hx => absurd hx (List.not_mem_nil x), hS2⟩
    · rfl
    · exact h3
  · have hw : w.start q = { w with bestList := c :: rest, best := some c } := by
      unfold start
      rw [heq]
    rw [hw]
    refine ⟨?_, ?_, ?_⟩
    · rw [inv1_iff]
      constructor
      · intro x hx
        have hx' : x ∈ c :: rest := hx
        rw [← heq] at hx'
        exact mem_keysList_of_mem_best_clusters hx'
      · exact hS2
    · refine inv2_of_bestMem ?_
      rw [bestMem_iff]
      intro b hb
      have hb' : some c = some b := hb
      rw [← Option.some.inj hb']
      exact List.mem_cons_self _ _
    · exact h3

theorem unpin_post (w : Wizard)
    (h1 : w.inv1b = true) (h2 : w.inv2b = true) (h3 : w.inv3b = true) :
    w.unpin.inv1b = true ∧ w.unpin.inv2b = true ∧ w.unpin.inv3b = true := by
  rcases hm : w.match_ with _ | m
  · have hw : w.unpin = w := by
      unfold unpin
      rw [hm]
    rw [hw]
    exact ⟨h1, h2, h3⟩
  · have hw : w.unpin = { w with match_ := none, matchList := [] } := by
      unfold unpin
      rw [hm]
    rw [hw]
    obtain ⟨hS1, hS2⟩ := (inv1_iff w).mp h1
    refine ⟨?_, h2, ?_⟩
    · rw [inv1_iff]
      exact ⟨hS1, fun x hx => absurd hx (List.not_mem_nil x)⟩
    · rfl

theorem next_best_post {w w' : Wizard} {q : ClusterId → Int}
    {s : ClusterId → ClusterId → Int}
    (h : w.next_best q s = some w')
    (h1 : w.inv1b = true) (h2 : w.inv2b = true) (h3 : w.inv3b = true) :
    w'.inv1b = true ∧ w'.inv2b = true ∧ w'.inv3b = true := by
  obtain ⟨hS1, hS2⟩ := (inv1_iff w).mp h1
  unfold next_best at h
  split at h
  · rw [← Option.some.inj h]
    exact ⟨h1, h2, h3⟩
  · split at h
    · exact Option.noConfusion h
    · rename_i v hv
      split at h
      · exact Option.noConfusion h
      · rename_i w1 hw1
        obtain ⟨b, hbmem, rfl⟩ := setBestValue_cases hw1
        split at h
        · rw [← Option.some.inj h]
          refine ⟨?_, ?_, ?_⟩
          · rw [inv1_iff]
            exact ⟨hS1, hS2⟩
          · refine inv2_of_bestMem ?_
            rw [bestMem_iff]
            intro x hx
            have hx' : some b = some x := hx
            rw [← Option.some.inj hx']
            exact hbmem
          · exact h3
        · obtain ⟨hin3, hsub⟩ := set_match_list_post h
          obtain ⟨hbl, hbb, hcg, -, -⟩ := set_match_list_frame h
          refine ⟨?_, ?_, hin3⟩
          · rw [inv1_iff]
            constructor
            · intro x hx
              rw [hbl] at hx
              show x ∈ w'.clusterGroups.map Prod.fst
              rw [hcg]
              exact hS1 x hx
            · intro x hx
              have hk := hsub x hx
              show x ∈ w'.clusterGroups.map Prod.fst
              rw [hcg]
              exact hk
          · refine inv2_of_bestMem ?_
            rw [bestMem_iff]
            intro x hx
            rw [hbb] at hx
            have hx' : some b = some x := hx
            rw [← Option.some.inj hx', hbl]
            exact hbmem

theorem previous_best_post {w w' : Wizard} {q : ClusterId → Int}
    {s : ClusterId → ClusterId → Int}
    (h : w.previous_best q s = some w')
    (h1 : w.inv1b = true) (h2 : w.inv2b = true) (h3 : w.inv3b = true) :
    w'.inv1b = true ∧ w'.inv2b = true ∧ w'.inv3b = true := by
  obtain ⟨hS1, hS2⟩ := (inv1_iff w).mp h1
  unfold previous_best at h
  split at h
  · rw [← Option.some.inj h]
    exact ⟨h1, h2, h3⟩
  · split at h
    · exact Option.noConfusion h
    · rename_i v hv
      split at h
      · exact Option.noConfusion h
      · rename_i w1 hw1
        obtain ⟨b, hbmem, rfl⟩ := setBestValue_cases hw1
        split at h
        · rw [← Option.some.inj h]
          refine ⟨?_, ?_, ?_⟩
          · rw [inv1_iff]
            exact ⟨hS1, hS2⟩
          · refine inv2_of_bestMem ?_
            rw [bestMem_iff]
            intro x hx
            have hx' : some b = some x := hx
            rw [← Option.some.inj hx']
            exact hbmem
          · exact h3
        · obtain ⟨hin3, hsub⟩ := set_match_list_post h
          obtain ⟨hbl, hbb, hcg, -, -⟩ := set_match_list_frame h
          refine ⟨?_, ?_, hin3⟩
          · rw [inv1_iff]
            constructor
            · intro x hx
              rw [hbl] at hx
              show x ∈ w'.clusterGroups.map Prod.fst
              rw [hcg]
              exact hS1 x hx
            · intro x hx
              have hk := hsub x hx
              show x ∈ w'.clusterGroups.map Prod.fst
              rw [hcg]
              exact hk
          · refine inv2_of_bestMem ?_
            rw [bestMem_iff]
            intro x hx
            rw [hbb] at hx
            have hx' : some b = some x := hx
            rw [← Option.some.inj hx', hbl]
            exact hbmem

theorem next_match_post {w w' : Wizard} {q : ClusterId → Int}
    {s : ClusterId → ClusterId → Int}
    (h : w.next_match q s = some w')
    (h1 : w.inv1b = true) (h2 : w.inv2b = true) (h3 : w.inv3b = true) :
    w'.inv1b = true ∧ w'.inv2b = true ∧ w'.inv3b = true := by
  unfold next_match at h
  split at h
  · exact next_best_post h h1 h2 h3
  · split at h
    · exact Option.noConfusion h
    · rcases setMatchValue_cases h with rfl | ⟨m, hmem, rfl⟩
      · exact ⟨h1, h2, inv3_of_matchMem rfl⟩
      · refine ⟨h1, h2, inv3_of_matchMem ?_⟩
        rw [matchMem_iff]
        intro x hx
        have hx' : some m = some x := hx
        rw [← Option.some.inj hx']
        exact hmem

theorem previous_match_post {w w' : Wizard}
    (h : w.previous_match = some w')
    (h1 : w.inv1b = true) (h2 : w.inv2b = true) :
    w'.inv1b = true ∧ w'.inv2b = true ∧ w'.inv3b = true := by
  unfold previous_match at h
  split at h
  · exact Option.noConfusion h
  · rcases setMatchValue_cases h with rfl | ⟨m, hmem, rfl⟩
    · exact ⟨h1, h2, inv3_of_matchMem rfl⟩
    · refine ⟨h1, h2, inv3_of_matchMem ?_⟩
      rw [matchMem_iff]
      intro x hx
      have hx' : some m = some x := hx
      rw [← Option.some.inj hx']
      exact hmem

theorem next_post {w w' : Wizard} {q : ClusterId → Int}
    {s : ClusterId → ClusterId → Int}
    (h : w.next q s = some w')
    (h1 : w.inv1b = true) (h2 : w.inv2b = true) (h3 : w.inv3b = true) :
    w'.inv1b = true ∧ w'.inv2b = true ∧ w'.inv3b = true := by
  unfold next at h
  split at h
  · exact next_best_post h h1 h2 h3
  · exact next_match_post h h1 h2 h3

theorem previous_post {w w' : Wizard} {q : ClusterId → Int}
    {s : ClusterId → ClusterId → Int}
    (h : w.previous q s = some w')
    (h1 : w.inv1b = true) (h2 : w.inv2b = true) (h3 : w.inv3b = true) :
    w'.inv1b = true ∧ w'.inv2b = true ∧ w'.inv3b = true := by
  unfold previous at h
  split at h
  · exact previous_best_post h h1 h2 h3
  · exact previous_match_post h h1 h2

theorem first_post {w w' : Wizard} (h : w.first = some w')
    (h1 : w.inv1b = true) (h2 : w.inv2b = true) (h3 : w.inv3b = true) :
    w'.inv1b = true ∧ w'.inv2b = true ∧ w'.inv3b = true := by
  unfold first at h
  split at h
  · split at h
    · exact Option.noConfusion h
    · obtain ⟨b, hbmem, rfl⟩ := setBestValue_cases h
      refine ⟨h1, ?_, h3⟩
      refine inv2_of_bestMem ?_
      rw [bestMem_iff]
      intro x hx
      have hx' : some b = some x := hx
      rw [← Option.some.inj hx']
      exact hbmem
  · split at h
    · exact Option.noConfusion h
    · rcases setMatchValue_cases h with rfl | ⟨m, hmem, rfl⟩
      · exact ⟨h1, h2, inv3_of_matchMem rfl⟩
      · refine ⟨h1, h2, inv3_of_matchMem ?_⟩
        rw [matchMem_iff]
        intro x hx
        have hx' : some m = some x := hx
        rw [← Option.some.inj hx']
        exact hmem

theorem last_post {w w' : Wizard} (h : w.last = some w')
    (h1 : w.inv1b = true) (h2 : w.inv2b = true) (h3 : w.inv3b = true) :
    w'.inv1b = true ∧ w'.inv2b = true ∧ w'.inv3b = true := by
  unfold last at h
  split at h
  · split at h
    · exact Option.noConfusion h
    · obtain ⟨b, hbmem, rfl⟩ := setBestValue_cases h
      refine ⟨h1, ?_, h3⟩
      refine inv2_of_bestMem ?_
      rw [bestMem_iff]
      intro x hx
      have hx' : some b = some x := hx
      rw [← Option.some.inj hx']
      exact hbmem
  · split at h
    · exact Option.noConfusion h
    · rcases setMatchValue_cases h with rfl | ⟨m, hmem, rfl⟩
      · exact ⟨h1, h2, inv3_of_matchMem rfl⟩
      · refine ⟨h1, h2, inv3_of_matchMem ?_⟩
        rw [matchMem_iff]
        intro x hx
        have hx' : some m = some x := hx
        rw [← Option.some.inj hx']
        exact hmem

theorem pin_post {w w' : Wizard} {q : ClusterId → Int}
    {s : ClusterId → ClusterId → Int} {cl : Option ClusterId}
    (h : w.pin q s cl = some w')
    (h1 : w.inv1b = true) (h2 : w.inv2b = true) (h3 : w.inv3b = true)
    (h4 : w.inv4b = true) :
    w'.inv1b = true ∧ w'.inv2b = true ∧ w'.inv3b = true ∧ w'.inv4b = true := by
  unfold pin at h
  split at h
  · rw [← Option.some.inj h]
    exact ⟨h1, h2, h3, h4⟩
  · split at h
    · rw [← Option.some.inj h]
      exact ⟨h1, h2, h3, h4⟩
    · split at h
      · exact Option.noConfusion h
      · rename_i w1 hw1
        split at h
        · exact Option.noConfusion h
        · rename_i w2 hw2
          split at h
          · rename_i hchk
            rw [← Option.some.inj h]
            exact checkB_elim hchk
          · exact Option.noConfusion h

theorem update_selection_checkB {w w' : Wizard} {q : ClusterId → Int}
    {s : ClusterId → ClusterId → Int} {up : ClusterUpdate}
    (h : w._update_selection q s up = some w') : w'.checkB = true := by
  unfold _update_selection at h
  split at h
  · exact Option.noConfusion h
  · rename_i wsel hsel
    split at h
    · rename_i hchk
      rw [← Option.some.inj h]
      exact hchk
    · exact Option.noConfusion h

theorem on_cluster_post {w w' : Wizard} {q : ClusterId → Int}
    {s : ClusterId → ClusterId → Int} {up : ClusterUpdate}
    (h : w.on_cluster q s up = some w')
    (hwf : listsWF w)
    (hB : ∀ b, w.best = some b → b ∈ w.bestList)
    (hM : ∀ m, w.match_ = some m → m ∈ w.matchList)
    (h4 : w.inv4b = true) :
    w'.inv1b = true ∧ w'.inv2b = true ∧ w'.inv3b = true ∧ w'.inv4b = true := by
  have h1 : w.inv1b = true := (inv1_iff w).mpr ⟨hwf.2.2.1, hwf.2.2.2⟩
  have h2 : w.inv2b = true := inv2_of_bestMem ((bestMem_iff w).mpr hB)
  have h3 : w.inv3b = true := inv3_of_matchMem ((matchMem_iff w).mpr hM)
  unfold on_cluster at h
  split at h
  · rw [← Option.some.inj h]
    exact ⟨h1, h2, h3, h4⟩
  · split at h
    · split at h
      · exact Option.noConfusion h
      · rename_i w1 hup
        split at h
        · rename_i hbl1
          rw [← Option.some.inj h]
          have hwf1 := update_state_listsWF hup hwf
          have hB1 := update_state_bestMem hup hB
          have hM1 := update_state_matchMem hup hM
          have hbest1 : w1.best = none := by
            rcases hb1 : w1.best with _ | b
            · rfl
            · have hmem := hB1 b hb1
              rw [List.isEmpty_iff.mp hbl1] at hmem
              exact absurd hmem (List.not_mem_nil b)
          refine ⟨(inv1_iff w1).mpr ⟨hwf1.2.2.1, hwf1.2.2.2⟩, ?_, ?_, ?_⟩
          · unfold inv2b
            rw [List.isEmpty_iff.mp hbl1]
            rfl
          · exact inv3_of_matchMem ((matchMem_iff w1).mpr hM1)
          · exact inv4_of_best_none hbest1
        · exact checkB_elim (update_selection_checkB h)
    · split at h
      · exact Option.noConfusion h
      · rename_i w1 hup
        split at h
        · exact Option.noConfusion h
        · rename_i w2 hsel
          have hchk := checkB_elim (update_selection_checkB hsel)
          split at h
          · rw [← Option.some.inj h]
            exact hchk
          · rw [← Option.some.inj h]
            exact hchk

end Wizard

/-- C1 counterexample: `wTwoNav` is reachable (one `nextBest()` from `wTwo`)
and satisfies all four invariants together with the structural well-formedness
used by the corrected theorem, yet the public operation `start()` re-selects
the top-quality cluster as best while leaving the pinned match untouched, so
invariant 4 (a defined best differs from a defined match) is violated even
though invariants 1-3 still hold. -/
theorem claim_C1_counterexample :
    wTwo.next_best qEx sEx = some wTwoNav ∧
    (listsWF wTwoNav ∧ wTwoNav.bestMem = true ∧ wTwoNav.matchMem = true ∧
      wTwoNav.inv4b = true) ∧
    applyOp qEx sEx WizardOp.start wTwoNav = some (wTwoNav.start qEx) ∧
    (wTwoNav.start qEx).inv1b = true ∧ (wTwoNav.start qEx).inv2b = true ∧
    (wTwoNav.start qEx).inv3b = true ∧ (wTwoNav.start qEx).inv4b = false := by
  decide

/-- C1 (corrected): for a structurally well-formed state (duplicate-free
lists over known ids, a defined best in `bestList`, a defined match in
`matchList`, best different from match), every public operation that returns
keeps invariants 1-3 of the data model, and the operations that run the
source's `_check()` on their state-changing paths (`pin` and
`onClusterUpdate`) also guarantee invariant 4; invariant 4 is not preserved
by every operation (see the `start()` counterexample). -/
theorem claim_C1_invariants (w w' : Wizard) (q : ClusterId → Int)
    (s : ClusterId → ClusterId → Int) (op : WizardOp)
    (hwf : listsWF w)
    (hb : w.bestMem = true) (hm : w.matchMem = true) (h4 : w.inv4b = true)
    (h : applyOp q s op w = some w') :
    (w'.inv1b = true ∧ w'.inv2b = true ∧ w'.inv3b = true) ∧
    (opChecked op = true → w'.inv4b = true) := by
  have h1 : w.inv1b = true := (Wizard.inv1_iff w).mpr ⟨hwf.2.2.1, hwf.2.2.2⟩
  have h2 : w.inv2b = true := Wizard.inv2_of_bestMem hb
  have h3 : w.inv3b = true := Wizard.inv3_of_matchMem hm
  cases op with
  | start =>
    have hww : w.start q = w' := Option.some.inj h
    rw [← hww]
    exact ⟨Wizard.start_post w q h1 h3, fun hc => absurd hc (by decide)⟩
  | pin cluster =>
    have hp := Wizard.pin_post h h1 h2 h3 h4
    exact ⟨⟨hp.1, hp.2.1, hp.2.2.1⟩, fun hc => hp.2.2.2⟩
  | unpin =>
    have hww : w.unpin = w' := Option.some.inj h
    rw [← hww]
    exact ⟨Wizard.unpin_post w h1 h2 h3, fun hc => absurd hc (by decide)⟩
  | nextBest =>
    exact ⟨Wizard.next_best_post h h1 h2 h3, fun hc => absurd hc (by decide)⟩
  | previousBest =>
    exact ⟨Wizard.previous_best_post h h1 h2 h3, fun hc => absurd hc (by decide)⟩
  | nextMatch =>
    exact ⟨Wizard.next_match_post h h1 h2 h3, fun hc => absurd hc (by decide)⟩
  | previousMatch =>
    exact ⟨Wizard.previous_match_post h h1 h2, fun hc => absurd hc (by decide)⟩
  | next =>
    exact ⟨Wizard.next_post h h1 h2 h3, fun hc => absurd hc (by decide)⟩
  | previous =>
    exact ⟨Wizard.previous_post h h1 h2 h3, fun hc => absurd hc (by decide)⟩
  | first =>
    exact ⟨Wizard.first_post h h1 h2 h3, fun hc => absurd hc (by decide)⟩
  | last =>
    exact ⟨Wizard.last_post h h1 h2 h3, fun hc => absurd hc (by decide)⟩
  | onClusterUpdate up =>
    have hp := Wizard.on_cluster_post h hwf ((Wizard.bestMem_iff w).mp hb)
      ((Wizard.matchMem_iff w).mp hm) h4
    exact ⟨⟨hp.1, hp.2.1, hp.2.2.1⟩, fun hc => hp.2.2.2⟩

/-- C1 witness: the checked operation `onClusterUpdate evMeta` on the
well-formed state `wThree` satisfies every hypothesis and yields a state
satisfying all four invariants. -/
theorem claim_C1_witness :
    applyOp qEx sEx (WizardOp.onClusterUpdate evMeta) wThree = some wThreeMeta ∧
    ((wThreeMeta.inv1b = true ∧ wThreeMeta.inv2b = true ∧ wThreeMeta.inv3b = true) ∧
     (opChecked (WizardOp.onClusterUpdate evMeta) = true → wThreeMeta.inv4b = true)) :=
  ⟨by decide,
    claim_C1_invariants wThree wThreeMeta qEx sEx (WizardOp.onClusterUpdate evMeta)
      (by decide) (by decide) (by decide) (by decide) (by decide)⟩
